import Mathlib

/-!
# WindowRGBTensor: a shallow embedding

Embedding of `src/opengl/visualization/WindowRGBTensor.hpp` (class `RGB` and
class template `WindowRGBTensor<eT>`).

Conventions of the embedding.

* The element type `eT` (float or double) is idealised as `ℚ`: values copied from
  a tensor to a colour are exact in the source as well, and the scale and
  position computations are taken in exact arithmetic.
* The local `batch_height`, which the source computes in `eT`, comes in two forms:
  `batch_height_eT p` rounds as a binary floating-point format with a `p`-bit
  significand does (24 for float, 53 for double); `batch_height` is the same
  quotient in exact arithmetic. `displayHandler_eT p` runs with the former,
  `displayHandler` with the latter.
* `size_t` values are `Nat`. The products passed to `draw_grid` are reduced
  modulo `2 ^ 64`, as 64-bit `size_t` arithmetic does; indices and positions of
  pixels are not reduced, being bounded by the size of a buffer that exists in
  memory.
* A read outside a buffer is undefined behaviour in the source. Here the
  description of a call ends at such a read, with `Fault.undefinedRead`; the
  events listed are those issued before it, and nothing is stated about what the
  program does next.
* OpenGL / GLUT calls, drawing helpers and the logger are recorded, in program
  order, as a list of `Event`s.
* A tensor pointer is the tensor it points to.
* The scoped lock taken by the synchronized members serialises threads; a
  single call, which is what is embedded here, acts on the canvas exactly like
  its body.
-/

namespace mic.opengl.visualization

/-! ## class RGB -/

namespace RGB

/-- Display mode (`enum ChannelDisplay`), enumerators in declaration order. -/
inductive ChannelDisplay where
  | Chan_SeparateColor
  | Chan_SeparateGrayscale
  | Chan_RGB
  deriving DecidableEq, Repr

/-- Integral value of a `ChannelDisplay` enumerator. -/
def ChannelDisplay.toNat : ChannelDisplay → Nat
  | .Chan_SeparateColor => 0
  | .Chan_SeparateGrayscale => 1
  | .Chan_RGB => 2

/-- The cast `(ChannelDisplay)n`; `none` when `n` names no enumerator. -/
def ChannelDisplay.ofNat? : Nat → Option ChannelDisplay
  | 0 => some .Chan_SeparateColor
  | 1 => some .Chan_SeparateGrayscale
  | 2 => some .Chan_RGB
  | _ => none

/-- Description of a channel display mode (`chan2str`). -/
def chan2str : ChannelDisplay → String
  | .Chan_SeparateColor =>
      "Displays separate channels, colored according to the channel type (R/G/B)"
  | .Chan_SeparateGrayscale => "Displays separate channels, all in grayscale"
  | .Chan_RGB => "Displays RGB image"

/-- Normalization of the images (`enum Normalization`). -/
inductive Normalization where
  | Norm_None
  deriving DecidableEq, Repr

/-- Description of a normalization mode (`norm2str`). -/
def norm2str : Normalization → String
  | .Norm_None => "Display original image(s), without any normalization"

/-- Types of grids to be displayed (`enum Grid`), enumerators in declaration order. -/
inductive Grid where
  | Grid_None
  | Grid_Sample
  | Grid_Batch
  | Grid_Both
  deriving DecidableEq, Repr

/-- Integral value of a `Grid` enumerator. -/
def Grid.toNat : Grid → Nat
  | .Grid_None => 0
  | .Grid_Sample => 1
  | .Grid_Batch => 2
  | .Grid_Both => 3

/-- The cast `(Grid)n`; `none` when `n` names no enumerator. -/
def Grid.ofNat? : Nat → Option Grid
  | 0 => some .Grid_None
  | 1 => some .Grid_Sample
  | 2 => some .Grid_Batch
  | 3 => some .Grid_Both
  | _ => none

/-- Description of a grid display mode (`grid2str`). -/
def grid2str : Grid → String
  | .Grid_None => "Display no grid"
  | .Grid_Sample => "Display only grid dividing sample cells"
  | .Grid_Batch => "Display grid dividing samples"
  | .Grid_Both => "Display both sample and batch grids"

end RGB

open RGB

/-! ## Tensors, events, canvas state -/

/-- A three-dimensional tensor: `dim(0)` rows, `dim(1)` columns, `dim(2)` channels,
and the flat buffer returned by `data()`. -/
structure Tensor where
  dim0 : Nat
  dim1 : Nat
  dim2 : Nat
  data : List ℚ
  deriving DecidableEq, Repr, Inhabited

/-- A shared pointer to a tensor. -/
abbrev TensorPtr := Tensor

/-- The buffer of the tensor holds one element per index triple. -/
def Tensor.WellFormed (t : Tensor) : Prop :=
  t.data.length = t.dim0 * t.dim1 * t.dim2

instance (t : Tensor) : Decidable t.WellFormed := by
  unfold Tensor.WellFormed; infer_instance

/-- Severity levels of the logger used by this class. -/
inductive LogLevel where
  | LTRACE
  | LINFO
  deriving DecidableEq, Repr

/-- Observable actions of the window, in program order. -/
inductive Event where
  | log (level : LogLevel) (msg : String)
  | glClearColor (r g b a : ℚ)
  | glClear
  | draw_filled_rectangle (x y h w r g b a : ℚ)
  | draw_grid (r g b a : ℚ) (cols rows : Nat) (stroke : Option ℚ)
  | glutSwapBuffers
  deriving DecidableEq, Repr

/-- Ways in which the description of a call ends before the end of the call:
`assertionFailed` when an `assert` aborts the program, `undefinedRead` when the call
reaches a read outside a buffer, from where on the source has undefined behaviour. -/
inductive Fault where
  | assertionFailed
  | undefinedRead
  deriving DecidableEq, Repr

/-- Data members of `WindowRGBTensor`. -/
structure Canvas where
  batch_data : List TensorPtr
  channel_display : ChannelDisplay
  normalization : Normalization
  grid : Grid
  deriving DecidableEq, Repr

/-! ## Batch dimensions -/

/-- Upward search for the least `w` with `n ≤ w * w`, starting at `w`. -/
def ceilSqrtFrom (n : Nat) : Nat → Nat → Nat
  | 0, w => w
  | fuel + 1, w => if n ≤ w * w then w else ceilSqrtFrom n fuel (w + 1)

/-- The value of `ceil(sqrt(n))` in exact arithmetic: the least `w` with `n ≤ w * w`. -/
def ceilSqrt (n : Nat) : Nat := ceilSqrtFrom n n 0

/-- Local `batch_width` of `displayHandler`, `ceil(sqrt(batch_data.size()))`, with the
square root (computed in double by the source) taken in exact arithmetic. -/
def batch_width (n : Nat) : Nat := ceilSqrt n

/-- Local `batch_height` of `displayHandler`, `ceil((eT)batch_data.size()/batch_width)`,
with the conversion and the division taken in exact arithmetic. -/
def batch_height (n : Nat) : Nat := ⌈(n : ℚ) / (batch_width n : ℚ)⌉₊

/-- Rounding of a rational to the nearest integer, ties to the even one. -/
def roundNearestEven (x : ℚ) : ℤ :=
  if x - ⌊x⌋ < 1 / 2 then ⌊x⌋
  else if 1 / 2 < x - ⌊x⌋ then ⌊x⌋ + 1
  else if ⌊x⌋ % 2 = 0 then ⌊x⌋ else ⌊x⌋ + 1

/-- Rounding of a non-negative rational to the nearest number with a `p`-bit
significand, ties to even: the result of a conversion to, or of an arithmetic
operation in, a binary floating-point format (`p = 24` for float, `p = 53` for
double). The exponent range is not modelled; the values at hand are far from
overflow and underflow. -/
def roundTo (p : Nat) (q : ℚ) : ℚ :=
  if q = 0 then 0
  else
    (roundNearestEven (q * (2 : ℚ) ^ ((p : ℤ) - 1 - Int.log 2 q)) : ℚ) /
      (2 : ℚ) ^ ((p : ℤ) - 1 - Int.log 2 q)

/-- Local `batch_height` of `displayHandler`, `ceil((eT)batch_data.size()/batch_width)`,
as computed when `eT` has a `p`-bit significand: both operands are converted to
`eT`, the quotient is rounded to `eT`, and the ceiling is taken. -/
def batch_height_eT (p : Nat) (n : Nat) : Nat :=
  ⌈roundTo p (roundTo p (n : ℚ) / roundTo p (batch_width n : ℚ))⌉₊

/-- Reduction of a natural number to the range of a 64-bit `size_t`. -/
def wrap_size_t (n : Nat) : Nat := n % 2 ^ 64

/-! ## Key handlers -/

/-- Member `keyhandlerToggleChannelDisplayMode`: the new canvas and the line logged. -/
def keyhandlerToggleChannelDisplayMode (c : Canvas) : Option (Canvas × List Event) :=
  match ChannelDisplay.ofNat? ((c.channel_display.toNat + 1) % 3) with
  | some m => some ({ c with channel_display := m }, [Event.log .LINFO (chan2str m)])
  | none => none

/-- Member `keyhandlerGridMode`: the new canvas and the line logged. -/
def keyhandlerGridMode (c : Canvas) : Option (Canvas × List Event) :=
  match Grid.ofNat? ((c.grid.toNat + 1) % 4) with
  | some m => some ({ c with grid := m }, [Event.log .LINFO (grid2str m)])
  | none => none

/-! ## Setters -/

/-- Member `setSampleUnsynchronized`: `batch_data.clear()` then `push_back`. -/
def setSampleUnsynchronized (c : Canvas) (sample_ptr : TensorPtr) : Canvas :=
  let cleared : Canvas := { c with batch_data := [] }
  { cleared with batch_data := cleared.batch_data ++ [sample_ptr] }

/-- Member `setSampleSynchronized`: the same statements inside the scoped lock. -/
def setSampleSynchronized (c : Canvas) (sample_ptr : TensorPtr) : Canvas :=
  let cleared : Canvas := { c with batch_data := [] }
  { cleared with batch_data := cleared.batch_data ++ [sample_ptr] }

/-- Member `setBatchUnsynchronized`: vector copy assignment. -/
def setBatchUnsynchronized (c : Canvas) (batch : List TensorPtr) : Canvas :=
  { c with batch_data := batch }

/-- Member `setBatchSynchronized`: the same assignment inside the scoped lock. -/
def setBatchSynchronized (c : Canvas) (batch : List TensorPtr) : Canvas :=
  { c with batch_data := batch }

/-! ## displayHandler -/

/-- How one pass through a loop body ends. -/
inductive Step (σ : Type) where
  | next (s : σ)
  | leave (s : σ)
  | stop (s : σ) (f : Fault)

/-- The loop `for (size_t i = start; i < start + count; i++) body`, where the body
may `break` (`Step.leave`) or end the whole call (`Step.stop`). -/
def forLoop {σ : Type} (body : Nat → σ → Step σ) : Nat → Nat → σ → σ × Option Fault
  | 0, _, s => (s, none)
  | count + 1, i, s =>
    match body i s with
    | .next s1 => forLoop body count (i + 1) s1
    | .leave s1 => (s1, none)
    | .stop s1 f => (s1, some f)

/-- The three reads `red`, `green`, `blue` made for pixel `(x, y)`; `none` when one of
them falls outside the buffer. The source reads through the raw pointer `data_ptr`
without any check, so `none` stands for undefined behaviour, not for a branch of
the source. -/
def readChannels (data : List ℚ) (height width y x : Nat) : Option (ℚ × ℚ × ℚ) :=
  match data[y * width + x]?, data[y * width + x + height * width]?,
      data[y * width + x + 2 * (height * width)]? with
  | some red, some green, some blue => some (red, green, blue)
  | _, _, _ => none

/-- The loops `for y < height` / `for x < width` shared by the three display modes;
`draw y x red green blue` is the list of rectangles issued for one pixel. At a read
outside the buffer the description ends with `Fault.undefinedRead`: the events are
those issued before the read, and what the source does from there on is not
described. -/
def pixelLoops (data : List ℚ) (height width : Nat)
    (draw : Nat → Nat → ℚ → ℚ → ℚ → List Event) (events : List Event) :
    List Event × Option Fault :=
  forLoop (fun y evs =>
    match forLoop (fun x evs1 =>
        match readChannels data height width y x with
        | some (red, green, blue) => Step.next (evs1 ++ draw y x red green blue)
        | none => Step.stop evs1 Fault.undefinedRead) width 0 evs with
    | (evs2, none) => Step.next evs2
    | (evs2, some f) => Step.stop evs2 f) height 0 events

/-- The three `draw_filled_rectangle` calls made for one pixel in the
`Chan_SeparateColor` case. -/
def drawSeparateColor (scale_x scale_y : ℚ) (bx by_ height width y x : Nat)
    (red green blue : ℚ) : List Event :=
  [ Event.draw_filled_rectangle (((3 * bx * width + x : Nat) : ℚ) * scale_x)
      (((by_ * height + y : Nat) : ℚ) * scale_y) scale_y scale_x red 0 0 1,
    Event.draw_filled_rectangle ((((3 * bx + 1) * width + x : Nat) : ℚ) * scale_x)
      (((by_ * height + y : Nat) : ℚ) * scale_y) scale_y scale_x 0 green 0 1,
    Event.draw_filled_rectangle ((((3 * bx + 2) * width + x : Nat) : ℚ) * scale_x)
      (((by_ * height + y : Nat) : ℚ) * scale_y) scale_y scale_x 0 0 blue 1 ]

/-- The three `draw_filled_rectangle` calls made for one pixel in the
`Chan_SeparateGrayscale` case. -/
def drawSeparateGrayscale (scale_x scale_y : ℚ) (bx by_ height width y x : Nat)
    (red green blue : ℚ) : List Event :=
  [ Event.draw_filled_rectangle (((3 * bx * width + x : Nat) : ℚ) * scale_x)
      (((by_ * height + y : Nat) : ℚ) * scale_y) scale_y scale_x red red red 1,
    Event.draw_filled_rectangle ((((3 * bx + 1) * width + x : Nat) : ℚ) * scale_x)
      (((by_ * height + y : Nat) : ℚ) * scale_y) scale_y scale_x green green green 1,
    Event.draw_filled_rectangle ((((3 * bx + 2) * width + x : Nat) : ℚ) * scale_x)
      (((by_ * height + y : Nat) : ℚ) * scale_y) scale_y scale_x blue blue blue 1 ]

/-- The `draw_filled_rectangle` call made for one pixel in the `Chan_RGB` case. -/
def drawRGB (scale_x scale_y : ℚ) (bx by_ height width y x : Nat)
    (red green blue : ℚ) : List Event :=
  [ Event.draw_filled_rectangle (((bx * width + x : Nat) : ℚ) * scale_x)
      (((by_ * height + y : Nat) : ℚ) * scale_y) scale_y scale_x red green blue 1 ]

/-- The `switch(channel_display)` of the sample loop: scale computation and pixel
loops of the selected mode for the sample in grid cell `(bx, by_)`. -/
def drawSample (channel_display : ChannelDisplay) (winW winH batch_width batch_height : Nat)
    (bx by_ : Nat) (data : List ℚ) (height width : Nat) (events : List Event) :
    List Event × Option Fault :=
  match channel_display with
  | .Chan_SeparateColor =>
    let scale_x : ℚ := (winW : ℚ) / ((width * batch_width * 3 : Nat) : ℚ)
    let scale_y : ℚ := (winH : ℚ) / ((height * batch_height : Nat) : ℚ)
    pixelLoops data height width
      (drawSeparateColor scale_x scale_y bx by_ height width) events
  | .Chan_SeparateGrayscale =>
    let scale_x : ℚ := (winW : ℚ) / ((width * batch_width * 3 : Nat) : ℚ)
    let scale_y : ℚ := (winH : ℚ) / ((height * batch_height : Nat) : ℚ)
    pixelLoops data height width
      (drawSeparateGrayscale scale_x scale_y bx by_ height width) events
  | .Chan_RGB =>
    let scale_x : ℚ := (winW : ℚ) / ((width * batch_width : Nat) : ℚ)
    let scale_y : ℚ := (winH : ℚ) / ((height * batch_height : Nat) : ℚ)
    pixelLoops data height width
      (drawRGB scale_x scale_y bx by_ height width) events

/-- Locals of `displayHandler` that live across the sample loop, with the events
issued so far. `height`, `width` and `depth` are declared without initialiser and
are assigned by the first sample before any use; they start at 0 here. -/
structure Locals where
  height : Nat
  width : Nat
  depth : Nat
  events : List Event
  deriving DecidableEq, Repr

/-- Body of the loop over `bx`. `NDEBUG` tells whether `assert` is compiled out. -/
def sampleBody (NDEBUG : Bool) (c : Canvas) (winW winH batch_width batch_height : Nat)
    (by_ bx : Nat) (s : Locals) : Step Locals :=
  if h : by_ * batch_width + bx ≥ c.batch_data.length then
    Step.leave s
  else
    let t : TensorPtr := c.batch_data.get ⟨by_ * batch_width + bx, by omega⟩
    let s1 : Locals := { s with height := t.dim0, width := t.dim1, depth := t.dim2 }
    if !NDEBUG && !decide (s1.depth ≥ 3) then
      Step.stop s1 Fault.assertionFailed
    else
      match drawSample c.channel_display winW winH batch_width batch_height bx by_
          t.data s1.height s1.width s1.events with
      | (evs, none) => Step.next { s1 with events := evs }
      | (evs, some f) => Step.stop { s1 with events := evs } f

/-- Body of the loop over `by_`: the whole loop over `bx`. -/
def rowBody (NDEBUG : Bool) (c : Canvas) (winW winH batch_width batch_height : Nat)
    (by_ : Nat) (s : Locals) : Step Locals :=
  match forLoop (sampleBody NDEBUG c winW winH batch_width batch_height by_) batch_width 0 s with
  | (s1, none) => Step.next s1
  | (s1, some f) => Step.stop s1 f

/-- The grid dividing sample cells, by channel display mode. The column and row
counts are `size_t` products. -/
def sampleGrid (channel_display : ChannelDisplay)
    (batch_width batch_height width height : Nat) : Event :=
  match channel_display with
  | .Chan_SeparateColor | .Chan_SeparateGrayscale =>
    Event.draw_grid 0.3 0.8 0.3 0.3 (wrap_size_t (wrap_size_t (batch_width * width) * 3))
      (wrap_size_t (batch_height * height)) none
  | .Chan_RGB =>
    Event.draw_grid 0.3 0.8 0.3 0.3 (wrap_size_t (batch_width * width))
      (wrap_size_t (batch_height * height)) none

/-- The `switch(grid)` at the end of `displayHandler`. -/
def drawGrids (grid : Grid) (channel_display : ChannelDisplay)
    (batch_width batch_height width height : Nat) : List Event :=
  match grid with
  | .Grid_Sample => [sampleGrid channel_display batch_width batch_height width height]
  | .Grid_Batch => [Event.draw_grid 0.3 0.8 0.3 0.3 batch_width batch_height (some 4.0)]
  | .Grid_Both =>
    [ sampleGrid channel_display batch_width batch_height width height,
      Event.draw_grid 0.3 0.8 0.3 0.3 batch_width batch_height (some 4.0) ]
  | .Grid_None => []

/-- The trace line logged on entry to `displayHandler`. -/
def displayTraceLine (glutGetWindow : Int) : Event :=
  Event.log .LTRACE ("WindowRGBTensor::Display handler of window " ++ toString glutGetWindow)

/-- Member `displayHandler`, given the value `bh` that its local `batch_height`
takes. `glutGetWindow`, `winW` and `winH` are the values GLUT reports for the current
window, its width and its height. The result is the list of events issued, and the
fault that ended the description early, if any. -/
def displayHandlerFrom (bh : Nat) (NDEBUG : Bool) (glutGetWindow : Int) (winW winH : Nat)
    (c : Canvas) : List Event × Option Fault :=
  let entry : List Event :=
    [displayTraceLine glutGetWindow, Event.glClearColor 0 0 0 0, Event.glClear]
  if c.batch_data.length > 0 then
    let bw := batch_width c.batch_data.length
    match forLoop (rowBody NDEBUG c winW winH bw bh) bh 0
        { height := 0, width := 0, depth := 0, events := entry } with
    | (s, some f) => (s.events, some f)
    | (s, none) =>
      (s.events ++ drawGrids c.grid c.channel_display bw bh s.width s.height ++
        [Event.glutSwapBuffers], none)
  else
    (entry ++ [Event.glutSwapBuffers], none)

/-- Member `displayHandler` with `batch_height` taken in exact arithmetic. -/
def displayHandler (NDEBUG : Bool) (glutGetWindow : Int) (winW winH : Nat) (c : Canvas) :
    List Event × Option Fault :=
  displayHandlerFrom (batch_height c.batch_data.length) NDEBUG glutGetWindow winW winH c

/-- Member `displayHandler` of `WindowRGBTensor<eT>` for an element type `eT` with a
`p`-bit significand: `batch_height` is computed in `eT`. -/
def displayHandler_eT (p : Nat) (NDEBUG : Bool) (glutGetWindow : Int) (winW winH : Nat)
    (c : Canvas) : List Event × Option Fault :=
  displayHandlerFrom (batch_height_eT p c.batch_data.length) NDEBUG glutGetWindow winW winH c

/-- Tells whether an event is a `draw_filled_rectangle` call. -/
def Event.isRectangle : Event → Bool
  | .draw_filled_rectangle .. => true
  | _ => false

/-- Tells whether an event is a `draw_grid` call. -/
def Event.isGrid : Event → Bool
  | .draw_grid .. => true
  | _ => false

/-- The rectangles among a list of events. -/
def rectangles (evs : List Event) : List Event := evs.filter Event.isRectangle

/-- The grid calls among a list of events. -/
def grids (evs : List Event) : List Event := evs.filter Event.isGrid

/-- Pressing a key `n` times in a row: the handler is run on the canvas left by the
previous run. -/
def pressKey (handler : Canvas → Option (Canvas × List Event)) : Nat → Canvas → Option Canvas
  | 0, c => some c
  | n + 1, c => (handler c).bind (fun p => pressKey handler n p.1)

/-! ## Closed forms used to state results -/

/-- Number of rectangles per pixel in a display mode. -/
def rectanglesPerPixel : ChannelDisplay → Nat
  | .Chan_SeparateColor => 3
  | .Chan_SeparateGrayscale => 3
  | .Chan_RGB => 1

/-- Closed form of the rectangles of pixel `(x, y)` of tensor `t` shown in grid cell
`(bx, by_)`: the draw statements of the mode applied to the three channel values. -/
def pixelRectangles (channel_display : ChannelDisplay)
    (winW winH batch_width batch_height bx by_ : Nat) (t : Tensor) (y x : Nat) : List Event :=
  let red := t.data.getD (y * t.dim1 + x) 0
  let green := t.data.getD (y * t.dim1 + x + t.dim0 * t.dim1) 0
  let blue := t.data.getD (y * t.dim1 + x + 2 * (t.dim0 * t.dim1)) 0
  let scale_y : ℚ := (winH : ℚ) / ((t.dim0 * batch_height : Nat) : ℚ)
  match channel_display with
  | .Chan_SeparateColor =>
    drawSeparateColor ((winW : ℚ) / ((t.dim1 * batch_width * 3 : Nat) : ℚ)) scale_y
      bx by_ t.dim0 t.dim1 y x red green blue
  | .Chan_SeparateGrayscale =>
    drawSeparateGrayscale ((winW : ℚ) / ((t.dim1 * batch_width * 3 : Nat) : ℚ)) scale_y
      bx by_ t.dim0 t.dim1 y x red green blue
  | .Chan_RGB =>
    drawRGB ((winW : ℚ) / ((t.dim1 * batch_width : Nat) : ℚ)) scale_y
      bx by_ t.dim0 t.dim1 y x red green blue

/-- Closed form of the rectangles of one sample: rows top to bottom, pixels left to
right within a row. -/
def sampleRectangles (channel_display : ChannelDisplay)
    (winW winH batch_width batch_height bx by_ : Nat) (t : Tensor) : List Event :=
  (List.range t.dim0).flatMap (fun y =>
    (List.range t.dim1).flatMap (fun x =>
      pixelRectangles channel_display winW winH batch_width batch_height bx by_ t y x))

/-- The colour arguments of a rectangle event. -/
def Event.colour : Event → Option (ℚ × ℚ × ℚ × ℚ)
  | .draw_filled_rectangle _ _ _ _ r g b a => some (r, g, b, a)
  | _ => none

/-- Sample `i` of the batch (the default tensor past the end). -/
def Canvas.sample (c : Canvas) (i : Nat) : Tensor := c.batch_data.getD i default

/-- A sample that `displayHandler` can render: a full buffer and at least three
channels. -/
def Tensor.Renderable (t : Tensor) : Prop := t.WellFormed ∧ 3 ≤ t.dim2

instance (t : Tensor) : Decidable t.Renderable := by
  unfold Tensor.Renderable; infer_instance

/-- Body of the sample loop as a function of the sample index alone: sample `i` sits
in row `i / batch_width`, column `i % batch_width`. -/
def sampleAt (NDEBUG : Bool) (c : Canvas) (winW winH batch_width batch_height : Nat)
    (i : Nat) (s : Locals) : Step Locals :=
  sampleBody NDEBUG c winW winH batch_width batch_height (i / batch_width) (i % batch_width) s

/-- Closed form of the rectangles of sample `i` of the batch, shown in grid cell
`(i % batch_width, i / batch_width)`. -/
def Canvas.block (c : Canvas) (winW winH i : Nat) : List Event :=
  sampleRectangles c.channel_display winW winH (batch_width c.batch_data.length)
    (batch_height c.batch_data.length) (i % batch_width c.batch_data.length)
    (i / batch_width c.batch_data.length) (c.sample i)

/-- Closed form of the rectangles of the first `k` samples of the batch, in index
order. -/
def batchRectangles (c : Canvas) (winW winH k : Nat) : List Event :=
  (List.range k).flatMap (c.block winW winH)

/-- The events issued by `displayHandler` before it looks at the batch. -/
def entryEvents (glutGetWindow : Int) : List Event :=
  [displayTraceLine glutGetWindow, Event.glClearColor 0 0 0 0, Event.glClear]

/-- A canvas used to exercise the results: a 1 x 2 image with three channels, a
1 x 1 tensor with a single channel, and a 1 x 1 image with three channels, shown in
RGB mode with the batch grid. -/
def exampleCanvas : Canvas :=
  { batch_data := [⟨1, 2, 3, [1, 2, 3, 4, 5, 6]⟩, ⟨1, 1, 1, [1 / 2]⟩, ⟨1, 1, 3, [1, 0, 0]⟩],
    channel_display := .Chan_RGB, normalization := .Norm_None, grid := .Grid_Batch }

/-- A canvas used to exercise the results: two 1 x 2 images with three channels,
shown as separate coloured channels with both grids. -/
def exampleRenderableCanvas : Canvas :=
  { batch_data := [⟨1, 2, 3, [1, 2, 3, 4, 5, 6]⟩, ⟨1, 2, 3, [6, 5, 4, 3, 2, 1]⟩],
    channel_display := .Chan_SeparateColor, normalization := .Norm_None, grid := .Grid_Both }

/-! ## The sample loop with the work on a sample left open -/

/-- Body of the loop over `bx` with the work on the sample left open: the bound
check and `break` of `displayHandler`, then `visit i bx by_` for the index
`i = by_ * batch_width + bx` that the source dereferences. -/
def guardedBody {σ : Type} (N batch_width : Nat) (visit : Nat → Nat → Nat → σ → Step σ)
    (by_ bx : Nat) (s : σ) : Step σ :=
  if by_ * batch_width + bx ≥ N then Step.leave s
  else visit (by_ * batch_width + bx) bx by_ s

/-- The nested loops over `by_` and `bx` of `displayHandler` with the work on the
sample left open. -/
def cellLoops {σ : Type} (N batch_width batch_height : Nat)
    (visit : Nat → Nat → Nat → σ → Step σ) (s : σ) : σ × Option Fault :=
  forLoop (fun by_ s1 =>
    match forLoop (guardedBody N batch_width visit by_) batch_width 0 s1 with
    | (s2, none) => Step.next s2
    | (s2, some f) => Step.stop s2 f) batch_height 0 s

/-- The work of `displayHandler` on sample `i`, shown in grid cell `(bx, by_)`: the
statements of the loop body after the bound check. -/
def renderVisit (NDEBUG : Bool) (c : Canvas) (winW winH batch_width batch_height : Nat)
    (i bx by_ : Nat) (s : Locals) : Step Locals :=
  if !NDEBUG && !decide ((c.sample i).dim2 ≥ 3) then
    Step.stop { s with height := (c.sample i).dim0, width := (c.sample i).dim1,
                       depth := (c.sample i).dim2 } Fault.assertionFailed
  else
    match drawSample c.channel_display winW winH batch_width batch_height bx by_
        (c.sample i).data (c.sample i).dim0 (c.sample i).dim1 s.events with
    | (evs, none) =>
      Step.next { height := (c.sample i).dim0, width := (c.sample i).dim1,
                  depth := (c.sample i).dim2, events := evs }
    | (evs, some f) =>
      Step.stop { height := (c.sample i).dim0, width := (c.sample i).dim1,
                  depth := (c.sample i).dim2, events := evs } f

/-- A visit together with a log of the visits made: each time the work on a sample
is entered, the index dereferenced and its grid cell `(bx, by_)` are appended. -/
def tracedVisit {σ : Type} (visit : Nat → Nat → Nat → σ → Step σ) (i bx by_ : Nat)
    (p : σ × List (Nat × Nat × Nat)) : Step (σ × List (Nat × Nat × Nat)) :=
  match visit i bx by_ p.1 with
  | .next s => Step.next (s, p.2 ++ [(i, bx, by_)])
  | .leave s => Step.leave (s, p.2 ++ [(i, bx, by_)])
  | .stop s f => Step.stop (s, p.2 ++ [(i, bx, by_)]) f

/-- Locals of `displayHandler` after the first `k ≥ 1` samples of a batch of
renderable samples have been drawn, starting from `s`. -/
def localsAfter (c : Canvas) (winW winH k : Nat) (s : Locals) : Locals :=
  { height := (c.sample (k - 1)).dim0, width := (c.sample (k - 1)).dim1,
    depth := (c.sample (k - 1)).dim2,
    events := s.events ++ batchRectangles c winW winH k }

/-- A canvas used to exercise the results: three 1 x 1 images with three channels,
which fill a 2 x 2 grid only in part. -/
def exampleThreeCanvas : Canvas :=
  { batch_data := [⟨1, 1, 3, [1, 0, 0]⟩, ⟨1, 1, 3, [0, 1, 0]⟩, ⟨1, 1, 3, [0, 0, 1]⟩],
    channel_display := .Chan_RGB, normalization := .Norm_None, grid := .Grid_None }

/-! ## The lattice of rectangle cells -/

/-- Closed form of the rectangles of sample `i` of the batch when the locals
`batch_width` and `batch_height` hold `bw` and `bh`. -/
def Canvas.blockAt (c : Canvas) (winW winH bw bh i : Nat) : List Event :=
  sampleRectangles c.channel_display winW winH bw bh (i % bw) (i / bw) (c.sample i)

/-- A canvas used to exercise the results: 16781313 references to one 1 x 1 image
with three channels, shown in RGB mode without grid. -/
def exampleLargeCanvas : Canvas :=
  { batch_data := List.replicate 16781313 ⟨1, 1, 3, [1, 0, 0]⟩,
    channel_display := .Chan_RGB, normalization := .Norm_None, grid := .Grid_None }

/-! ## Facts about the batch dimensions -/

theorem ceilSqrtFrom_spec (n : Nat) : ∀ (fuel w : Nat), n ≤ w + fuel →
    (∀ v, v < w → v * v < n) →
    n ≤ ceilSqrtFrom n fuel w * ceilSqrtFrom n fuel w ∧
      ∀ v, v < ceilSqrtFrom n fuel w → v * v < n := by
  intro fuel
  induction fuel with
  | zero =>
    intro w hw hlow
    simp only [ceilSqrtFrom]
    refine ⟨?_, hlow⟩
    have hnw : n ≤ w := by simpa using hw
    rcases Nat.eq_zero_or_pos w with h0 | hpos
    · subst h0; simpa using hnw
    · exact le_trans hnw (Nat.le_mul_of_pos_left w hpos)
  | succ k ih =>
    intro w hw hlow
    simp only [ceilSqrtFrom]
    split
    · rename_i h
      exact ⟨h, hlow⟩
    · rename_i h
      apply ih (w + 1) (by omega)
      intro v hv
      rcases Nat.lt_succ_iff_lt_or_eq.mp hv with h1 | h1
      · exact hlow v h1
      · subst h1; omega

theorem ceilSqrt_sq_ge (n : Nat) : n ≤ ceilSqrt n * ceilSqrt n :=
  (ceilSqrtFrom_spec n n 0 (by omega) (by intro v hv; omega)).1

theorem ceilSqrt_least (n v : Nat) (hv : v < ceilSqrt n) : v * v < n :=
  (ceilSqrtFrom_spec n n 0 (by omega) (by intro v hv; omega)).2 v hv

theorem ceilSqrt_pos (n : Nat) (hn : 1 ≤ n) : 1 ≤ ceilSqrt n := by
  have h := ceilSqrt_sq_ge n
  rcases Nat.eq_zero_or_pos (ceilSqrt n) with h0 | hpos
  · rw [h0] at h; omega
  · exact hpos

theorem ceilSqrt_le_self (n : Nat) : ceilSqrt n ≤ n := by
  by_contra hlt
  push_neg at hlt
  have h := ceilSqrt_least n n hlt
  rcases Nat.eq_zero_or_pos n with h0 | hpos
  · subst h0; omega
  · have := Nat.le_mul_of_pos_left n hpos
    omega

/-- The search computes the ceiling of the real square root. -/
theorem ceilSqrt_eq_ceil_sqrt (n : Nat) : ceilSqrt n = ⌈Real.sqrt (n : ℝ)⌉₊ := by
  symm
  rcases Nat.eq_zero_or_pos (ceilSqrt n) with h0 | hpos
  · have hn : n = 0 := by
      have h := ceilSqrt_sq_ge n
      rw [h0] at h; omega
    subst hn
    simp [h0]
  · rw [Nat.ceil_eq_iff (by omega)]
    constructor
    · have hlt : (ceilSqrt n - 1) * (ceilSqrt n - 1) < n :=
        ceilSqrt_least n _ (by omega)
      apply Real.lt_sqrt_of_sq_lt
      have : (((ceilSqrt n - 1) * (ceilSqrt n - 1) : Nat) : ℝ) < (n : ℝ) := by
        exact_mod_cast hlt
      rw [pow_two]
      push_cast at this ⊢
      exact this
    · rw [Real.sqrt_le_left (by positivity)]
      have : ((n : Nat) : ℝ) ≤ ((ceilSqrt n * ceilSqrt n : Nat) : ℝ) := by
        exact_mod_cast ceilSqrt_sq_ge n
      rw [pow_two]
      push_cast at this
      exact this

/-- Integer form of the height: the rounded-up quotient. -/
theorem batch_height_eq (n : Nat) (hn : 1 ≤ n) :
    batch_height n = (n + batch_width n - 1) / batch_width n := by
  have hw : 1 ≤ batch_width n := ceilSqrt_pos n hn
  have hwq : (0 : ℚ) < (batch_width n : ℚ) := by exact_mod_cast hw
  set w := batch_width n with hwdef
  have hq : 1 ≤ (n + w - 1) / w := by
    rw [Nat.le_div_iff_mul_le (by omega)]
    omega
  unfold batch_height
  rw [← hwdef, Nat.ceil_eq_iff (by omega)]
  constructor
  · rw [lt_div_iff₀ hwq]
    have h1 : ((n + w - 1) / w - 1) * w < n := by
      have h2 : (n + w - 1) / w * w ≤ n + w - 1 := Nat.div_mul_le_self _ _
      have h3 : ((n + w - 1) / w - 1) * w = (n + w - 1) / w * w - w := by
        rw [Nat.sub_mul]; simp
      omega
    have h4 : ((((n + w - 1) / w - 1) * w : Nat) : ℚ) < (n : ℚ) := by exact_mod_cast h1
    push_cast at h4 ⊢
    exact h4
  · rw [div_le_iff₀ hwq]
    have h1 : n ≤ (n + w - 1) / w * w := by
      have h2 := Nat.div_add_mod (n + w - 1) w
      have h3 : (n + w - 1) % w < w := Nat.mod_lt _ (by omega)
      have h4 : w * ((n + w - 1) / w) = (n + w - 1) / w * w := Nat.mul_comm _ _
      omega
    exact_mod_cast h1

/-! ## The batch height computed in eT -/

theorem roundNearestEven_intCast (z : ℤ) : roundNearestEven (z : ℚ) = z := by
  simp [roundNearestEven]

theorem roundNearestEven_le (x : ℚ) (z : ℤ) (h : x ≤ (z : ℚ)) : roundNearestEven x ≤ z := by
  have hfl : ⌊x⌋ ≤ z := by
    have : ((⌊x⌋ : ℤ) : ℚ) ≤ (z : ℚ) := le_trans (Int.floor_le x) h
    exact_mod_cast this
  have hstep : 0 < x - ⌊x⌋ → ⌊x⌋ + 1 ≤ z := by
    intro hpos
    have : ((⌊x⌋ : ℤ) : ℚ) < (z : ℚ) := by linarith
    have : ⌊x⌋ < z := by exact_mod_cast this
    omega
  unfold roundNearestEven
  split_ifs with h1 h2 h3
  · exact hfl
  · exact hstep (by linarith)
  · exact hfl
  · exact hstep (by linarith)

theorem lt_roundNearestEven (x : ℚ) (z : ℤ) (h : (z : ℚ) + 1 / 2 < x) :
    z < roundNearestEven x := by
  have hz : z ≤ ⌊x⌋ := Int.le_floor.mpr (by linarith)
  have hge : ⌊x⌋ ≤ roundNearestEven x := by
    unfold roundNearestEven
    split_ifs <;> omega
  rcases lt_or_eq_of_le hz with hlt | heq
  · omega
  · have h2 : 1 / 2 < x - ⌊x⌋ := by rw [← heq]; linarith
    have h1 : ¬ (x - ⌊x⌋ < 1 / 2) := by linarith
    have : roundNearestEven x = ⌊x⌋ + 1 := by
      unfold roundNearestEven
      rw [if_neg h1, if_pos h2]
    omega

theorem roundTo_of_scaled_int (p : Nat) (q : ℚ) (hq : q ≠ 0) (z : ℤ)
    (hz : q * (2 : ℚ) ^ ((p : ℤ) - 1 - Int.log 2 q) = (z : ℚ)) : roundTo p q = q := by
  have hpow : (2 : ℚ) ^ ((p : ℤ) - 1 - Int.log 2 q) ≠ 0 := zpow_ne_zero _ (by norm_num)
  unfold roundTo
  rw [if_neg hq, hz, roundNearestEven_intCast, ← hz]
  field_simp

theorem roundTo_natCast (p n : Nat) (hn : 1 ≤ n) (hlt : n < 2 ^ p) :
    roundTo p (n : ℚ) = (n : ℚ) := by
  have hlog : Nat.log 2 n < p := Nat.log_lt_of_lt_pow (by omega) hlt
  have hexp : (p : ℤ) - 1 - Int.log 2 (n : ℚ) = ((p - 1 - Nat.log 2 n : ℕ) : ℤ) := by
    rw [Int.log_natCast]; omega
  apply roundTo_of_scaled_int p (n : ℚ) (by exact_mod_cast (by omega : n ≠ 0))
    ((n * 2 ^ (p - 1 - Nat.log 2 n) : ℕ) : ℤ)
  rw [hexp, zpow_natCast]
  push_cast
  ring

theorem batch_width_le_half_pow (p N : Nat) (hp : 2 ≤ p) (hlt : N < 2 ^ p) :
    batch_width N ≤ 2 ^ (p - 1) := by
  by_contra hcon
  push_neg at hcon
  have h := ceilSqrt_least N (2 ^ (p - 1)) hcon
  have h2 : 2 ^ p ≤ 2 ^ (p - 1) * 2 ^ (p - 1) := by
    rw [← pow_add]
    exact Nat.pow_le_pow_right (by norm_num) (by omega)
  omega

theorem batch_height_eT_eq (p N : Nat) (hp : 2 ≤ p) (hN : 1 ≤ N) (hlt : N < 2 ^ p) :
    batch_height_eT p N = batch_height N := by
  have hw1 : 1 ≤ batch_width N := ceilSqrt_pos N hN
  have hwN : batch_width N ≤ N := ceilSqrt_le_self N
  have hsq : N ≤ batch_width N * batch_width N := ceilSqrt_sq_ge N
  have hwp : batch_width N ≤ 2 ^ (p - 1) := batch_width_le_half_pow p N hp hlt
  unfold batch_height_eT batch_height
  rw [roundTo_natCast p N hN hlt, roundTo_natCast p (batch_width N) hw1 (by omega)]
  set w := batch_width N with hwdef
  set q : ℚ := (N : ℚ) / (w : ℚ) with hqdef
  have hwq : (0 : ℚ) < (w : ℚ) := by exact_mod_cast hw1
  have hq1 : (1 : ℚ) ≤ q := by
    rw [hqdef, le_div_iff₀ hwq, one_mul]; exact_mod_cast hwN
  have hqw : q ≤ (w : ℚ) := by
    rw [hqdef, div_le_iff₀ hwq]; exact_mod_cast hsq
  have hq0 : q ≠ 0 := by linarith
  -- the exponent
  have hfl : ⌊q⌋₊ ≠ 0 := by
    have := Nat.floor_pos.mpr hq1; omega
  have hlogeq : Int.log 2 q = ((Nat.log 2 ⌊q⌋₊ : ℕ) : ℤ) := Int.log_of_one_le_right 2 hq1
  set e := Nat.log 2 ⌊q⌋₊ with hedef
  have hpe : 2 ^ e ≤ ⌊q⌋₊ := Nat.pow_log_le_self 2 hfl
  have hflw : ⌊q⌋₊ ≤ w := by
    have : ((⌊q⌋₊ : ℕ) : ℚ) ≤ (w : ℚ) := le_trans (Nat.floor_le (by linarith)) hqw
    exact_mod_cast this
  have he : e ≤ p - 1 := by
    by_contra hcon
    push_neg at hcon
    have : 2 ^ (p - 1 + 1) ≤ 2 ^ e := Nat.pow_le_pow_right (by norm_num) hcon
    have h3 : 2 ^ (p - 1 + 1) = 2 * 2 ^ (p - 1) := by rw [pow_succ]; ring
    have h4 : 0 < 2 ^ (p - 1) := Nat.two_pow_pos _
    omega
  have hexp : (p : ℤ) - 1 - Int.log 2 q = ((p - 1 - e : ℕ) : ℤ) := by
    rw [hlogeq]; omega
  set k := p - 1 - e with hkdef
  have hs : (0 : ℚ) < (2 : ℚ) ^ k := by positivity
  unfold roundTo
  rw [if_neg hq0, hexp, zpow_natCast]
  -- the ceiling
  set c := ⌈q⌉₊ with hcdef
  have hc1 : 1 ≤ c := by
    have : 0 < c := Nat.ceil_pos.mpr (by linarith)
    omega
  have hqc : q ≤ (c : ℚ) := Nat.le_ceil q
  have hmq : ((c - 1 : ℕ) : ℚ) < q := Nat.lt_ceil.mp (by omega)
  rw [Nat.ceil_eq_iff (by omega)]
  constructor
  · -- strictly above c - 1
    rw [lt_div_iff₀ hs]
    by_cases hint : q = (c : ℚ)
    · have hx : q * (2 : ℚ) ^ k = (((c * 2 ^ k : ℕ) : ℤ) : ℚ) := by
        rw [hint]; push_cast; ring
      rw [hx, roundNearestEven_intCast]
      have : (c - 1) * 2 ^ k < c * 2 ^ k :=
        Nat.mul_lt_mul_of_pos_right (by omega) (Nat.two_pow_pos _)
      have h2 : (((c - 1) * 2 ^ k : ℕ) : ℚ) < ((c * 2 ^ k : ℕ) : ℚ) := by exact_mod_cast this
      push_cast at h2 ⊢
      exact h2
    · have hqlt : q < (c : ℚ) := lt_of_le_of_ne hqc hint
      -- floor of q is c - 1
      have hflc : ⌊q⌋₊ ≤ c - 1 := by
        have : ((⌊q⌋₊ : ℕ) : ℚ) < (c : ℚ) := lt_of_le_of_lt (Nat.floor_le (by linarith)) hqlt
        have : ⌊q⌋₊ < c := by exact_mod_cast this
        omega
      -- N > (c - 1) * w
      have hNm : (c - 1) * w < N := by
        have : ((c - 1 : ℕ) : ℚ) * (w : ℚ) < (N : ℚ) := by
          rw [hqdef, lt_div_iff₀ hwq] at hmq; exact hmq
        exact_mod_cast this
      -- w < 2 * 2 ^ k
      have hw2 : w < 2 * 2 ^ k := by
        have h1 : 2 ^ e * w ≤ (c - 1) * w := Nat.mul_le_mul_right w (le_trans hpe hflc)
        have h2 : 2 ^ e * w < 2 ^ p := by omega
        have h3 : 2 ^ p = 2 ^ e * (2 * 2 ^ k) := by
          have : p = e + (1 + k) := by omega
          rw [this, pow_add, pow_add]; ring
        rw [h3] at h2
        exact Nat.lt_of_mul_lt_mul_left h2
      have hw2q : (w : ℚ) < 2 * (2 : ℚ) ^ k := by exact_mod_cast hw2
      have hNq : ((c - 1 : ℕ) : ℚ) * (w : ℚ) + 1 ≤ (N : ℚ) := by exact_mod_cast hNm
      have hqge : ((c - 1 : ℕ) : ℚ) + 1 / (w : ℚ) ≤ q := by
        rw [hqdef, le_div_iff₀ hwq, add_mul, one_div, inv_mul_cancel₀ (ne_of_gt hwq)]
        exact hNq
      have hhalf : (1 : ℚ) / 2 < (2 : ℚ) ^ k / (w : ℚ) := by
        rw [lt_div_iff₀ hwq]; linarith
      have hgt : ((((c - 1) * 2 ^ k : ℕ) : ℤ) : ℚ) + 1 / 2 < q * (2 : ℚ) ^ k := by
        have h5 : (((c - 1 : ℕ) : ℚ) + 1 / (w : ℚ)) * (2 : ℚ) ^ k ≤ q * (2 : ℚ) ^ k :=
          mul_le_mul_of_nonneg_right hqge (le_of_lt hs)
        have h6 : (((c - 1 : ℕ) : ℚ) + 1 / (w : ℚ)) * (2 : ℚ) ^ k =
            ((c - 1 : ℕ) : ℚ) * (2 : ℚ) ^ k + (2 : ℚ) ^ k / (w : ℚ) := by
          field_simp
          ring
        push_cast
        linarith
      have hr := lt_roundNearestEven _ _ hgt
      have hr2 : ((((c - 1) * 2 ^ k : ℕ) : ℤ) : ℚ) < (roundNearestEven (q * (2 : ℚ) ^ k) : ℚ) := by
        exact_mod_cast hr
      push_cast at hr2 ⊢
      exact hr2
  · -- at most c
    rw [div_le_iff₀ hs]
    have hx : q * (2 : ℚ) ^ k ≤ (((c * 2 ^ k : ℕ) : ℤ) : ℚ) := by
      push_cast
      exact mul_le_mul_of_nonneg_right hqc (le_of_lt hs)
    have hr := roundNearestEven_le _ _ hx
    have hr2 : (roundNearestEven (q * (2 : ℚ) ^ k) : ℚ) ≤ (((c * 2 ^ k : ℕ) : ℤ) : ℚ) := by
      exact_mod_cast hr
    push_cast at hr2 ⊢
    exact hr2

theorem ceilSqrt_eq_of_bounds (n w : Nat) (hw : 1 ≤ w) (hge : n ≤ w * w)
    (hlt : (w - 1) * (w - 1) < n) : ceilSqrt n = w := by
  have h1 : ceilSqrt n ≤ w := by
    by_contra hcon
    push_neg at hcon
    have := ceilSqrt_least n w hcon
    omega
  have h2 : w - 1 < ceilSqrt n := by
    by_contra hcon
    push_neg at hcon
    have h3 := ceilSqrt_sq_ge n
    have h4 : ceilSqrt n * ceilSqrt n ≤ (w - 1) * (w - 1) := Nat.mul_le_mul hcon hcon
    omega
  omega

theorem batch_width_large : batch_width 16781313 = 4097 :=
  ceilSqrt_eq_of_bounds 16781313 4097 (by norm_num) (by norm_num) (by norm_num)

theorem roundTo_large : roundTo 24 ((16781313 : ℕ) : ℚ) = 16781312 := by
  have hlog : Int.log 2 ((16781313 : ℕ) : ℚ) = 24 := by
    rw [Int.log_natCast, Nat.log_eq_of_pow_le_of_lt_pow (m := 24) (by norm_num) (by norm_num)]
    rfl
  have hfloor : ⌊(16781313 : ℚ) / 2⌋ = 8390656 := by
    rw [Int.floor_eq_iff]; constructor <;> norm_num
  unfold roundTo
  rw [if_neg (by norm_num), hlog]
  have hx : ((16781313 : ℕ) : ℚ) * (2 : ℚ) ^ (((24 : ℕ) : ℤ) - 1 - 24) = (16781313 : ℚ) / 2 := by
    norm_num
  rw [hx]
  have hr : roundNearestEven ((16781313 : ℚ) / 2) = 8390656 := by
    unfold roundNearestEven
    rw [hfloor]
    norm_num
  rw [hr]
  norm_num

theorem batch_height_eT_large : batch_height_eT 24 16781313 = 4096 := by
  unfold batch_height_eT
  rw [batch_width_large, roundTo_large, roundTo_natCast 24 4097 (by norm_num) (by norm_num)]
  have hq : (16781312 : ℚ) / ((4097 : ℕ) : ℚ) = ((4096 : ℕ) : ℚ) := by norm_num
  rw [hq, roundTo_natCast 24 4096 (by norm_num) (by norm_num), Nat.ceil_natCast]

/-! ## Loops -/

theorem forLoop_all_next (body : Nat → List Event → Step (List Event))
    (d : Nat → List Event) : ∀ (count i : Nat) (evs : List Event),
    (∀ j, i ≤ j → j < i + count → ∀ e, body j e = Step.next (e ++ d j)) →
    forLoop body count i evs = (evs ++ (List.range' i count).flatMap d, none) := by
  intro count
  induction count with
  | zero => intro i evs _; simp [forLoop]
  | succ k ih =>
    intro i evs h
    have h0 := h i (le_refl i) (by omega) evs
    simp only [forLoop, h0]
    rw [ih (i + 1) (evs ++ d i) (fun j hj1 hj2 e => h j (by omega) (by omega) e)]
    simp [List.range'_succ, List.flatMap_cons, List.append_assoc]

theorem length_flatMap_range' {α : Type} (d : Nat → List α) (m : Nat)
    (hlen : ∀ j, (d j).length = m) : ∀ (count i : Nat),
    ((List.range' i count).flatMap d).length = count * m := by
  intro count
  induction count with
  | zero => intro i; simp
  | succ k ih =>
    intro i
    simp only [List.range'_succ, List.flatMap_cons, List.length_append, hlen, ih (i + 1)]
    ring

theorem getElem?_flatMap_range' {α : Type} (d : Nat → List α) (m : Nat)
    (hlen : ∀ j, (d j).length = m) : ∀ (count i j r : Nat), j < count → r < m →
    ((List.range' i count).flatMap d)[j * m + r]? = (d (i + j))[r]? := by
  intro count
  induction count with
  | zero => intro i j r hj; omega
  | succ k ih =>
    intro i j r hj hr
    simp only [List.range'_succ, List.flatMap_cons]
    cases j with
    | zero =>
      rw [List.getElem?_append_left (by rw [hlen]; omega)]
      simp
    | succ j1 =>
      rw [List.getElem?_append_right (by rw [hlen]; nlinarith)]
      have hidx : (j1 + 1) * m + r - (d i).length = j1 * m + r := by
        rw [hlen, Nat.add_mul]; omega
      rw [hidx, ih (i + 1) j1 r (by omega) hr]
      congr 2
      omega

theorem pixel_index_lt (H W D y x : Nat) (hD : 3 ≤ D) (hy : y < H) (hx : x < W) :
    y * W + x + 2 * (H * W) < H * W * D := by
  have h1 : y * W + x < H * W := by
    have : (y + 1) * W ≤ H * W := Nat.mul_le_mul_right W hy
    rw [Nat.add_mul] at this
    omega
  have h2 : H * W * 3 ≤ H * W * D := Nat.mul_le_mul_left (H * W) hD
  omega

theorem readChannels_of_lt (data : List ℚ) (height width y x : Nat)
    (h : y * width + x + 2 * (height * width) < data.length) :
    readChannels data height width y x =
      some (data.getD (y * width + x) 0, data.getD (y * width + x + height * width) 0,
        data.getD (y * width + x + 2 * (height * width)) 0) := by
  have h1 : y * width + x < data.length := by omega
  have h2 : y * width + x + height * width < data.length := by omega
  simp [readChannels, List.getD_eq_getElem?_getD, List.getElem?_eq_getElem h,
    List.getElem?_eq_getElem h1, List.getElem?_eq_getElem h2]

theorem pixelLoops_of_inBounds (data : List ℚ) (height width : Nat)
    (draw : Nat → Nat → ℚ → ℚ → ℚ → List Event) (events : List Event)
    (h : ∀ y x, y < height → x < width →
      y * width + x + 2 * (height * width) < data.length) :
    pixelLoops data height width draw events =
      (events ++ (List.range height).flatMap (fun y =>
        (List.range width).flatMap (fun x =>
          draw y x (data.getD (y * width + x) 0)
            (data.getD (y * width + x + height * width) 0)
            (data.getD (y * width + x + 2 * (height * width)) 0))), none) := by
  unfold pixelLoops
  rw [List.range_eq_range']
  apply forLoop_all_next
  intro y _ hy e
  have hrow := forLoop_all_next
    (fun x evs1 =>
      match readChannels data height width y x with
      | some (red, green, blue) => Step.next (evs1 ++ draw y x red green blue)
      | none => Step.stop evs1 Fault.undefinedRead)
    (fun x => draw y x (data.getD (y * width + x) 0)
      (data.getD (y * width + x + height * width) 0)
      (data.getD (y * width + x + 2 * (height * width)) 0))
    width 0 e
    (by
      intro x _ hx e1
      simp only [readChannels_of_lt data height width y x (h y x (by omega) (by omega))])
  simp only [hrow, List.range_eq_range']

theorem drawSample_of_renderable (channel_display : ChannelDisplay)
    (winW winH bw bh bx by_ : Nat) (t : Tensor) (events : List Event)
    (ht : t.Renderable) :
    drawSample channel_display winW winH bw bh bx by_ t.data t.dim0 t.dim1 events =
      (events ++ sampleRectangles channel_display winW winH bw bh bx by_ t, none) := by
  have hb : ∀ y x, y < t.dim0 → x < t.dim1 →
      y * t.dim1 + x + 2 * (t.dim0 * t.dim1) < t.data.length := by
    intro y x hy hx
    rw [ht.1]
    exact pixel_index_lt t.dim0 t.dim1 t.dim2 y x ht.2 hy hx
  cases channel_display <;>
    simp only [drawSample, sampleRectangles, pixelRectangles,
      pixelLoops_of_inBounds t.data t.dim0 t.dim1 _ events hb]

theorem forLoop_congr {σ : Type} (body1 body2 : Nat → σ → Step σ) :
    ∀ (count i : Nat) (s : σ),
    (∀ j, i ≤ j → j < i + count → ∀ s1, body1 j s1 = body2 j s1) →
    forLoop body1 count i s = forLoop body2 count i s := by
  intro count
  induction count with
  | zero => intro i s _; rfl
  | succ k ih =>
    intro i s h
    simp only [forLoop, h i (le_refl i) (by omega) s]
    cases body2 i s with
    | next s1 => exact ih (i + 1) s1 (fun j h1 h2 s2 => h j (by omega) (by omega) s2)
    | leave s1 => rfl
    | stop s1 f => rfl

theorem forLoop_shift {σ : Type} (body : Nat → σ → Step σ) (a : Nat) :
    ∀ (count i : Nat) (s : σ),
    forLoop (fun j => body (a + j)) count i s = forLoop body count (a + i) s := by
  intro count
  induction count with
  | zero => intro i s; rfl
  | succ k ih =>
    intro i s
    simp only [forLoop]
    cases body (a + i) s with
    | next s1 => exact ih (i + 1) s1
    | leave s1 => rfl
    | stop s1 f => rfl

theorem forLoop_cut {σ : Type} (body : Nat → σ → Step σ) (L : Nat)
    (hleave : ∀ j, L ≤ j → ∀ s, body j s = Step.leave s) :
    ∀ (count i : Nat) (s : σ),
    forLoop body count i s = forLoop body (min count (L - i)) i s := by
  intro count
  induction count with
  | zero => intro i s; simp [forLoop]
  | succ k ih =>
    intro i s
    by_cases hi : L ≤ i
    · have h0 : L - i = 0 := by omega
      simp [forLoop, hleave i hi s, h0]
    · have h1 : min (k + 1) (L - i) = min k (L - (i + 1)) + 1 := by omega
      rw [h1]
      simp only [forLoop]
      cases body i s with
      | next s1 => exact ih (i + 1) s1
      | leave s1 => rfl
      | stop s1 f => rfl

theorem forLoop_add {σ : Type} (body : Nat → σ → Step σ) (k2 : Nat) :
    ∀ (k1 i : Nat) (s : σ),
    (∀ j, i ≤ j → j < i + k1 → ∀ s1 s2, body j s1 ≠ Step.leave s2) →
    forLoop body (k1 + k2) i s =
      match forLoop body k1 i s with
      | (s1, none) => forLoop body k2 (i + k1) s1
      | (s1, some f) => (s1, some f) := by
  intro k1
  induction k1 with
  | zero => intro i s _; simp [forLoop]
  | succ k ih =>
    intro i s h
    have h0 := h i (le_refl i) (by omega) s
    have hk : k + 1 + k2 = (k + k2) + 1 := by omega
    rw [hk]
    simp only [forLoop]
    cases hb : body i s with
    | next s1 =>
      simp only []
      rw [ih (i + 1) s1 (fun j h1 h2 => h j (by omega) (by omega))]
      have : i + 1 + k = i + (k + 1) := by omega
      rw [this]
    | leave s1 => exact absurd hb (h0 s1)
    | stop s1 f => rfl

/-! ## The sample loop -/

theorem sampleBody_leave (NDEBUG : Bool) (c : Canvas) (winW winH bw bh by_ bx : Nat)
    (s : Locals) (h : c.batch_data.length ≤ by_ * bw + bx) :
    sampleBody NDEBUG c winW winH bw bh by_ bx s = Step.leave s := by
  simp [sampleBody, h]

theorem sampleBody_of_lt (NDEBUG : Bool) (c : Canvas) (winW winH bw bh by_ bx : Nat)
    (s : Locals) (h : by_ * bw + bx < c.batch_data.length) :
    sampleBody NDEBUG c winW winH bw bh by_ bx s =
      if !NDEBUG && !decide ((c.sample (by_ * bw + bx)).dim2 ≥ 3) then
        Step.stop { s with height := (c.sample (by_ * bw + bx)).dim0,
                           width := (c.sample (by_ * bw + bx)).dim1,
                           depth := (c.sample (by_ * bw + bx)).dim2 } Fault.assertionFailed
      else
        match drawSample c.channel_display winW winH bw bh bx by_
            (c.sample (by_ * bw + bx)).data (c.sample (by_ * bw + bx)).dim0
            (c.sample (by_ * bw + bx)).dim1 s.events with
        | (evs, none) =>
          Step.next { height := (c.sample (by_ * bw + bx)).dim0,
                      width := (c.sample (by_ * bw + bx)).dim1,
                      depth := (c.sample (by_ * bw + bx)).dim2, events := evs }
        | (evs, some f) =>
          Step.stop { height := (c.sample (by_ * bw + bx)).dim0,
                      width := (c.sample (by_ * bw + bx)).dim1,
                      depth := (c.sample (by_ * bw + bx)).dim2, events := evs } f := by
  have hget : c.batch_data.get ⟨by_ * bw + bx, h⟩ = c.sample (by_ * bw + bx) := by
    simp [Canvas.sample, List.getD_eq_getElem?_getD, List.getElem?_eq_getElem h]
  have hn : ¬ (by_ * bw + bx ≥ c.batch_data.length) := by omega
  simp only [sampleBody, hn, dite_false, hget]

theorem cell_index (bw i : Nat) : i / bw * bw + i % bw = i := by
  rw [Nat.mul_comm]; exact Nat.div_add_mod i bw

theorem sampleAt_leave (NDEBUG : Bool) (c : Canvas) (winW winH bw bh i : Nat)
    (s : Locals) (h : c.batch_data.length ≤ i) :
    sampleAt NDEBUG c winW winH bw bh i s = Step.leave s := by
  unfold sampleAt
  apply sampleBody_leave
  rw [cell_index]; exact h

theorem sampleAt_renderable (NDEBUG : Bool) (c : Canvas) (winW winH bw bh i : Nat)
    (s : Locals) (h : i < c.batch_data.length) (ht : (c.sample i).Renderable) :
    sampleAt NDEBUG c winW winH bw bh i s =
      Step.next { height := (c.sample i).dim0, width := (c.sample i).dim1,
                  depth := (c.sample i).dim2,
                  events := s.events ++ sampleRectangles c.channel_display winW winH bw bh
                    (i % bw) (i / bw) (c.sample i) } := by
  unfold sampleAt
  rw [sampleBody_of_lt NDEBUG c winW winH bw bh _ _ s (by rw [cell_index]; exact h)]
  rw [cell_index]
  have hd : decide ((c.sample i).dim2 ≥ 3) = true := by simpa using ht.2
  simp only [hd, Bool.not_true, Bool.and_false, Bool.false_eq_true, if_false,
    drawSample_of_renderable c.channel_display winW winH bw bh _ _ (c.sample i) s.events ht]

theorem sampleAt_assert (c : Canvas) (winW winH bw bh i : Nat)
    (s : Locals) (h : i < c.batch_data.length) (hd : (c.sample i).dim2 < 3) :
    sampleAt false c winW winH bw bh i s =
      Step.stop { s with height := (c.sample i).dim0, width := (c.sample i).dim1,
                         depth := (c.sample i).dim2 } Fault.assertionFailed := by
  unfold sampleAt
  rw [sampleBody_of_lt false c winW winH bw bh _ _ s (by rw [cell_index]; exact h)]
  rw [cell_index]
  have hd1 : decide ((c.sample i).dim2 ≥ 3) = false := by simpa using hd
  simp [hd1]

theorem sampleAt_not_leave (NDEBUG : Bool) (c : Canvas) (winW winH bw bh i : Nat)
    (h : i < c.batch_data.length) (s1 s2 : Locals) :
    sampleAt NDEBUG c winW winH bw bh i s1 ≠ Step.leave s2 := by
  unfold sampleAt
  rw [sampleBody_of_lt NDEBUG c winW winH bw bh _ _ s1 (by rw [cell_index]; exact h)]
  split
  · simp
  · split <;> simp

theorem row_eq_linear (NDEBUG : Bool) (c : Canvas) (winW winH bw bh r : Nat) (s : Locals)
    (hbw : 0 < bw) :
    forLoop (sampleBody NDEBUG c winW winH bw bh r) bw 0 s =
      forLoop (sampleAt NDEBUG c winW winH bw bh)
        (min bw (c.batch_data.length - r * bw)) (r * bw) s := by
  have h1 : forLoop (sampleBody NDEBUG c winW winH bw bh r) bw 0 s =
      forLoop (fun j => sampleAt NDEBUG c winW winH bw bh (r * bw + j)) bw 0 s := by
    apply forLoop_congr
    intro j _ hj s1
    have hdiv : (r * bw + j) / bw = r := by
      rw [Nat.mul_comm, Nat.mul_add_div hbw, Nat.div_eq_of_lt (by omega)]; rfl
    have hmod : (r * bw + j) % bw = j := by
      rw [Nat.mul_comm, Nat.mul_add_mod, Nat.mod_eq_of_lt (by omega)]
    simp only [sampleAt, hdiv, hmod]
  rw [h1, forLoop_shift (sampleAt NDEBUG c winW winH bw bh) (r * bw) bw 0 s,
    forLoop_cut (sampleAt NDEBUG c winW winH bw bh) c.batch_data.length
      (fun j hj s1 => sampleAt_leave NDEBUG c winW winH bw bh j s1 hj)]
  rfl

theorem rows_eq_linear (NDEBUG : Bool) (c : Canvas) (winW winH bw bh : Nat) (hbw : 0 < bw) :
    ∀ (k r : Nat) (s : Locals),
    forLoop (rowBody NDEBUG c winW winH bw bh) k r s =
      forLoop (sampleAt NDEBUG c winW winH bw bh)
        (min (k * bw) (c.batch_data.length - r * bw)) (r * bw) s := by
  intro k
  induction k with
  | zero => intro r s; simp [forLoop]
  | succ k ih =>
    intro r s
    have hsplit : min ((k + 1) * bw) (c.batch_data.length - r * bw) =
        min bw (c.batch_data.length - r * bw) +
          min (k * bw) (c.batch_data.length - (r + 1) * bw) := by
      rw [Nat.add_mul, Nat.add_mul]
      omega
    rw [hsplit, forLoop_add (sampleAt NDEBUG c winW winH bw bh) _ _ (r * bw) s
      (fun j h1 h2 s1 s2 =>
        sampleAt_not_leave NDEBUG c winW winH bw bh j (by omega) s1 s2)]
    simp only [forLoop, rowBody]
    rw [row_eq_linear NDEBUG c winW winH bw bh r s hbw]
    rcases hres : forLoop (sampleAt NDEBUG c winW winH bw bh)
        (min bw (c.batch_data.length - r * bw)) (r * bw) s with ⟨s1, _ | f⟩
    · simp only []
      rw [ih (r + 1) s1]
      by_cases hfull : bw ≤ c.batch_data.length - r * bw
      · have : r * bw + min bw (c.batch_data.length - r * bw) = (r + 1) * bw := by
          rw [Nat.add_mul]; omega
        rw [this]
      · have h0 : min (k * bw) (c.batch_data.length - (r + 1) * bw) = 0 := by
          rw [Nat.add_mul]; omega
        rw [h0]
        simp [forLoop]
    · rfl

/-- The nested loops over `by_` and `bx` visit the samples in index order: they
behave like a single loop over the sample index. -/
theorem grid_loops_eq_linear (NDEBUG : Bool) (c : Canvas) (winW winH : Nat) (s : Locals)
    (hN : 1 ≤ c.batch_data.length) :
    forLoop (rowBody NDEBUG c winW winH (batch_width c.batch_data.length)
        (batch_height c.batch_data.length)) (batch_height c.batch_data.length) 0 s =
      forLoop (sampleAt NDEBUG c winW winH (batch_width c.batch_data.length)
        (batch_height c.batch_data.length)) c.batch_data.length 0 s := by
  have hbw : 1 ≤ batch_width c.batch_data.length := ceilSqrt_pos _ hN
  rw [rows_eq_linear NDEBUG c winW winH _ _ hbw]
  have hcover : c.batch_data.length ≤
      batch_height c.batch_data.length * batch_width c.batch_data.length := by
    rw [batch_height_eq _ hN]
    set w := batch_width c.batch_data.length
    set n := c.batch_data.length
    have h2 := Nat.div_add_mod (n + w - 1) w
    have h3 : (n + w - 1) % w < w := Nat.mod_lt _ (by omega)
    have h4 : w * ((n + w - 1) / w) = (n + w - 1) / w * w := Nat.mul_comm _ _
    omega
  have : min (batch_height c.batch_data.length * batch_width c.batch_data.length)
      (c.batch_data.length - 0 * batch_width c.batch_data.length) = c.batch_data.length := by
    simp only [Nat.zero_mul, Nat.sub_zero]; omega
  rw [this, Nat.zero_mul]

theorem linear_renderable (NDEBUG : Bool) (c : Canvas) (winW winH bw bh : Nat) :
    ∀ (k i : Nat) (s : Locals), i + k ≤ c.batch_data.length →
    (∀ j, i ≤ j → j < i + k → (c.sample j).Renderable) →
    forLoop (sampleAt NDEBUG c winW winH bw bh) k i s =
      ({ height := if k = 0 then s.height else (c.sample (i + k - 1)).dim0,
         width := if k = 0 then s.width else (c.sample (i + k - 1)).dim1,
         depth := if k = 0 then s.depth else (c.sample (i + k - 1)).dim2,
         events := s.events ++ (List.range' i k).flatMap (fun j =>
           sampleRectangles c.channel_display winW winH bw bh (j % bw) (j / bw)
             (c.sample j)) }, none) := by
  intro k
  induction k with
  | zero => intro i s _ _; simp [forLoop]
  | succ k ih =>
    intro i s hle hgood
    simp only [forLoop,
      sampleAt_renderable NDEBUG c winW winH bw bh i s (by omega) (hgood i (le_refl i) (by omega))]
    rw [ih (i + 1) _ (by omega) (fun j h1 h2 => hgood j (by omega) (by omega))]
    have hidx : i + 1 + k - 1 = i + (k + 1) - 1 := by omega
    by_cases hk : k = 0
    · subst hk
      simp
    · simp only [hk, if_false, Nat.succ_ne_zero, hidx, List.range'_succ, List.flatMap_cons,
        List.append_assoc]

theorem displayHandler_renderable (NDEBUG : Bool) (glutGetWindow : Int) (winW winH : Nat)
    (c : Canvas) (hN : 1 ≤ c.batch_data.length)
    (hgood : ∀ i, i < c.batch_data.length → (c.sample i).Renderable) :
    displayHandler NDEBUG glutGetWindow winW winH c =
      (entryEvents glutGetWindow ++ batchRectangles c winW winH c.batch_data.length ++
        drawGrids c.grid c.channel_display (batch_width c.batch_data.length)
          (batch_height c.batch_data.length) (c.sample (c.batch_data.length - 1)).dim1
          (c.sample (c.batch_data.length - 1)).dim0 ++
        [Event.glutSwapBuffers], none) := by
  have hpos : c.batch_data.length > 0 := hN
  have hne : c.batch_data.length ≠ 0 := by omega
  simp only [displayHandler, displayHandlerFrom, hpos, if_true, grid_loops_eq_linear NDEBUG c winW winH _ hN]
  rw [linear_renderable NDEBUG c winW winH _ _ c.batch_data.length 0 _ (by omega)
    (fun j _ h2 => hgood j (by omega))]
  simp only [hne, if_false, Nat.zero_add, entryEvents, batchRectangles,
    List.range_eq_range']
  rfl

theorem linear_assert (c : Canvas) (winW winH bw bh k m : Nat) (s : Locals)
    (hk : k < c.batch_data.length)
    (hgood : ∀ i, i < k → (c.sample i).Renderable) (hbad : (c.sample k).dim2 < 3) :
    (forLoop (sampleAt false c winW winH bw bh) (k + (m + 1)) 0 s).2 =
        some Fault.assertionFailed ∧
      (forLoop (sampleAt false c winW winH bw bh) (k + (m + 1)) 0 s).1.events =
        s.events ++ (List.range' 0 k).flatMap (fun j =>
          sampleRectangles c.channel_display winW winH bw bh (j % bw) (j / bw)
            (c.sample j)) := by
  rw [forLoop_add (sampleAt false c winW winH bw bh) (m + 1) k 0 s
    (fun j _ h2 s1 s2 => sampleAt_not_leave false c winW winH bw bh j (by omega) s1 s2)]
  rw [linear_renderable false c winW winH bw bh k 0 s (by omega)
    (fun j _ h2 => hgood j (by omega))]
  simp only [forLoop, Nat.zero_add]
  rw [sampleAt_assert c winW winH bw bh k _ hk hbad]
  exact ⟨rfl, rfl⟩

theorem displayHandler_assert (glutGetWindow : Int) (winW winH : Nat)
    (c : Canvas) (k : Nat) (hk : k < c.batch_data.length)
    (hgood : ∀ i, i < k → (c.sample i).Renderable) (hbad : (c.sample k).dim2 < 3) :
    displayHandler false glutGetWindow winW winH c =
      (entryEvents glutGetWindow ++ batchRectangles c winW winH k,
        some Fault.assertionFailed) := by
  have hpos : c.batch_data.length > 0 := by omega
  have hlen : c.batch_data.length = k + (c.batch_data.length - k - 1 + 1) := by omega
  have h := linear_assert c winW winH (batch_width c.batch_data.length)
    (batch_height c.batch_data.length) k (c.batch_data.length - k - 1)
    { height := 0, width := 0, depth := 0, events := entryEvents glutGetWindow } hk hgood hbad
  rw [← hlen] at h
  simp only [displayHandler, displayHandlerFrom, hpos, if_true,
    grid_loops_eq_linear false c winW winH _ (by omega : 1 ≤ c.batch_data.length)]
  rcases hres : forLoop (sampleAt false c winW winH (batch_width c.batch_data.length)
      (batch_height c.batch_data.length)) c.batch_data.length 0
      { height := 0, width := 0, depth := 0, events := entryEvents glutGetWindow }
    with ⟨s1, fo⟩
  rw [hres] at h
  simp only at h
  obtain ⟨h1, h2⟩ := h
  subst h1
  have hres2 : forLoop (sampleAt false c winW winH (batch_width c.batch_data.length)
      (batch_height c.batch_data.length)) c.batch_data.length 0
      { height := 0, width := 0, depth := 0,
        events := [displayTraceLine glutGetWindow, Event.glClearColor 0 0 0 0, Event.glClear] }
      = (s1, some Fault.assertionFailed) := hres
  rw [hres2]
  simp only [h2, batchRectangles, List.range_eq_range']
  rfl

/-! ## displayHandler with the height computed in eT -/

/-- Below `2 ^ p` samples the height computed in `eT` is the exact one, and the two
forms of `displayHandler` agree. -/
theorem displayHandler_eT_eq (p : Nat) (NDEBUG : Bool) (glutGetWindow : Int)
    (winW winH : Nat) (c : Canvas) (hp : 2 ≤ p) (hlt : c.batch_data.length < 2 ^ p) :
    displayHandler_eT p NDEBUG glutGetWindow winW winH c =
      displayHandler NDEBUG glutGetWindow winW winH c := by
  unfold displayHandler_eT displayHandler
  by_cases hN : 1 ≤ c.batch_data.length
  · rw [batch_height_eT_eq p c.batch_data.length hp hN hlt]
  · have h0 : ¬ (c.batch_data.length > 0) := by omega
    simp only [displayHandlerFrom, h0, if_false]

theorem lt_two_pow_of_small (p n : Nat) (hp : 24 ≤ p) (hlt : n < 2 ^ 24) : n < 2 ^ p :=
  lt_of_lt_of_le hlt (Nat.pow_le_pow_right (by norm_num) hp)

/-- The events of `displayHandler` for any value `bh` of the local `batch_height`:
the samples that the `batch_width` by `bh` grid reaches are drawn in index order. -/
theorem displayHandlerFrom_renderable (bh : Nat) (NDEBUG : Bool) (glutGetWindow : Int)
    (winW winH : Nat) (c : Canvas) (M : Nat) (hN : 1 ≤ c.batch_data.length)
    (hM : M = min (bh * batch_width c.batch_data.length) c.batch_data.length) (hM1 : 1 ≤ M)
    (hgood : ∀ i, i < M → (c.sample i).Renderable) :
    displayHandlerFrom bh NDEBUG glutGetWindow winW winH c =
      (entryEvents glutGetWindow ++
        (List.range M).flatMap (c.blockAt winW winH (batch_width c.batch_data.length) bh) ++
        drawGrids c.grid c.channel_display (batch_width c.batch_data.length) bh
          (c.sample (M - 1)).dim1 (c.sample (M - 1)).dim0 ++
        [Event.glutSwapBuffers], none) := by
  have hpos : c.batch_data.length > 0 := hN
  have hbw : 0 < batch_width c.batch_data.length := ceilSqrt_pos _ hN
  have hne : M ≠ 0 := by omega
  have hcount : min (bh * batch_width c.batch_data.length)
      (c.batch_data.length - 0 * batch_width c.batch_data.length) = M := by
    rw [hM, Nat.zero_mul, Nat.sub_zero]
  simp only [displayHandlerFrom, hpos, if_true]
  rw [rows_eq_linear NDEBUG c winW winH _ bh hbw bh 0, hcount, Nat.zero_mul,
    linear_renderable NDEBUG c winW winH _ bh M 0 _ (by omega)
      (fun j _ h2 => hgood j (by omega))]
  simp only [hne, if_false, Nat.zero_add, entryEvents, List.range_eq_range']
  rfl

/-! ## Shape of the rectangle lists -/

theorem pixelRectangles_length (ch : ChannelDisplay) (winW winH bw bh bx by_ : Nat)
    (t : Tensor) (y x : Nat) :
    (pixelRectangles ch winW winH bw bh bx by_ t y x).length = rectanglesPerPixel ch := by
  cases ch <;> rfl

theorem pixelRectangles_isRectangle (ch : ChannelDisplay) (winW winH bw bh bx by_ : Nat)
    (t : Tensor) (y x : Nat) :
    ∀ e, e ∈ pixelRectangles ch winW winH bw bh bx by_ t y x → e.isRectangle = true := by
  intro e he
  cases ch <;>
    simp only [pixelRectangles, drawSeparateColor, drawSeparateGrayscale, drawRGB,
      List.mem_cons, List.mem_singleton, List.not_mem_nil, or_false] at he
  · rcases he with h | h | h <;> (subst h; rfl)
  · rcases he with h | h | h <;> (subst h; rfl)
  · subst he; rfl

theorem sampleRectangles_isRectangle (ch : ChannelDisplay) (winW winH bw bh bx by_ : Nat)
    (t : Tensor) :
    ∀ e, e ∈ sampleRectangles ch winW winH bw bh bx by_ t → e.isRectangle = true := by
  intro e he
  simp only [sampleRectangles, List.mem_flatMap, List.mem_range] at he
  obtain ⟨y, _, x, _, hmem⟩ := he
  exact pixelRectangles_isRectangle ch winW winH bw bh bx by_ t y x e hmem

theorem batchRectangles_isRectangle (c : Canvas) (winW winH k : Nat) :
    ∀ e, e ∈ batchRectangles c winW winH k → e.isRectangle = true := by
  intro e he
  simp only [batchRectangles, Canvas.block, List.mem_flatMap, List.mem_range] at he
  obtain ⟨i, _, hmem⟩ := he
  exact sampleRectangles_isRectangle _ _ _ _ _ _ _ _ e hmem

theorem isGrid_of_isRectangle (e : Event) (h : e.isRectangle = true) : e.isGrid = false := by
  cases e <;> simp_all [Event.isRectangle, Event.isGrid]

theorem rectangles_batchRectangles (c : Canvas) (winW winH k : Nat) :
    rectangles (batchRectangles c winW winH k) = batchRectangles c winW winH k :=
  List.filter_eq_self.mpr (batchRectangles_isRectangle c winW winH k)

theorem grids_batchRectangles (c : Canvas) (winW winH k : Nat) :
    grids (batchRectangles c winW winH k) = [] := by
  unfold grids
  rw [List.filter_eq_nil_iff]
  intro e he
  rw [isGrid_of_isRectangle e (batchRectangles_isRectangle c winW winH k e he)]
  simp

theorem rectangles_drawGrids (g : Grid) (ch : ChannelDisplay) (bw bh w h : Nat) :
    rectangles (drawGrids g ch bw bh w h) = [] := by
  cases g <;> cases ch <;> rfl

theorem rectangles_entryEvents (glutGetWindow : Int) :
    rectangles (entryEvents glutGetWindow) = [] := rfl

theorem grids_entryEvents (glutGetWindow : Int) :
    grids (entryEvents glutGetWindow) = [] := rfl

theorem sampleRectangles_length (ch : ChannelDisplay) (winW winH bw bh bx by_ : Nat)
    (t : Tensor) :
    (sampleRectangles ch winW winH bw bh bx by_ t).length =
      rectanglesPerPixel ch * (t.dim0 * t.dim1) := by
  unfold sampleRectangles
  rw [List.range_eq_range', List.range_eq_range']
  rw [length_flatMap_range' _ (t.dim1 * rectanglesPerPixel ch)
    (fun y => by
      rw [length_flatMap_range' _ (rectanglesPerPixel ch)
        (fun x => pixelRectangles_length ch winW winH bw bh bx by_ t y x)])]
  ring

theorem sampleRectangles_getElem? (ch : ChannelDisplay) (winW winH bw bh bx by_ : Nat)
    (t : Tensor) (y x k : Nat) (hy : y < t.dim0) (hx : x < t.dim1)
    (hk : k < rectanglesPerPixel ch) :
    (sampleRectangles ch winW winH bw bh bx by_ t)[rectanglesPerPixel ch * (y * t.dim1 + x) + k]? =
      (pixelRectangles ch winW winH bw bh bx by_ t y x)[k]? := by
  unfold sampleRectangles
  rw [List.range_eq_range', List.range_eq_range']
  have hrow : ∀ y1, ((List.range' 0 t.dim1).flatMap (fun x1 =>
      pixelRectangles ch winW winH bw bh bx by_ t y1 x1)).length =
        t.dim1 * rectanglesPerPixel ch := fun y1 =>
    length_flatMap_range' _ (rectanglesPerPixel ch)
      (fun x1 => pixelRectangles_length ch winW winH bw bh bx by_ t y1 x1) t.dim1 0
  have hidx : rectanglesPerPixel ch * (y * t.dim1 + x) + k =
      y * (t.dim1 * rectanglesPerPixel ch) + (x * rectanglesPerPixel ch + k) := by ring
  have hin : x * rectanglesPerPixel ch + k < t.dim1 * rectanglesPerPixel ch := by
    have : (x + 1) * rectanglesPerPixel ch ≤ t.dim1 * rectanglesPerPixel ch :=
      Nat.mul_le_mul_right _ hx
    rw [Nat.add_mul] at this
    omega
  rw [hidx, getElem?_flatMap_range' _ (t.dim1 * rectanglesPerPixel ch) hrow t.dim0 0 y _ hy hin]
  rw [getElem?_flatMap_range' _ (rectanglesPerPixel ch)
    (fun x1 => pixelRectangles_length ch winW winH bw bh bx by_ t (0 + y) x1) t.dim1 0 x k hx hk]
  simp

/-! ## Batch dimensions: results -/

/-- C1: for every batch size `N ≥ 1`, the grid dimensions of `displayHandler`,
`batch_width = ceil(sqrt(N))` (the ceiling of the real square root) and
`batch_height = ceil(N / batch_width)` (the ceiling of the exact quotient), satisfy
`batch_width * batch_height ≥ N` and `batch_width * (batch_height - 1) < N`. -/
theorem C1_grid_covers_batch_tightly (N : Nat) (hN : 1 ≤ N) :
    (batch_width N = ⌈Real.sqrt (N : ℝ)⌉₊ ∧
      batch_height N = ⌈(N : ℚ) / (batch_width N : ℚ)⌉₊) ∧
    batch_width N * batch_height N ≥ N ∧
    batch_width N * (batch_height N - 1) < N := by
  refine ⟨⟨ceilSqrt_eq_ceil_sqrt N, rfl⟩, ?_⟩
  have hw : 1 ≤ batch_width N := ceilSqrt_pos N hN
  rw [batch_height_eq N hN]
  set w := batch_width N
  have h2 := Nat.div_add_mod (N + w - 1) w
  have h3 : (N + w - 1) % w < w := Nat.mod_lt _ (by omega)
  have h5 : w * ((N + w - 1) / w - 1) = w * ((N + w - 1) / w) - w := by
    rw [Nat.mul_sub, Nat.mul_one]
  constructor
  · show N ≤ w * ((N + w - 1) / w)
    omega
  · rw [h5]
    omega

/-- Witness of C1 at `N = 5`. -/
theorem C1_grid_covers_batch_tightly_witness :
    1 ≤ 5 ∧ batch_width 5 * batch_height 5 ≥ 5 ∧ batch_width 5 * (batch_height 5 - 1) < 5 :=
  ⟨by decide, (C1_grid_covers_batch_tightly 5 (by decide)).2⟩

/-- C8: for a batch of 4 samples `displayHandler` computes `batch_width = 2` and
`batch_height = 2`; for a batch of 5 samples, `batch_width = 3` and `batch_height = 2`. -/
theorem C8_grid_of_four_and_five :
    (batch_width 4 = 2 ∧ batch_height 4 = 2) ∧ (batch_width 5 = 3 ∧ batch_height 5 = 2) := by
  refine ⟨⟨by decide, ?_⟩, ⟨by decide, ?_⟩⟩
  · rw [batch_height_eq 4 (by decide)]; decide
  · rw [batch_height_eq 5 (by decide)]; decide

/-! ## Key handlers: results -/

/-- C3: from every canvas, running `keyhandlerToggleChannelDisplayMode` 3 times
gives back the original canvas (so `channel_display` has its original value), and
running `keyhandlerGridMode` 4 times gives back the original canvas (so `grid` has
its original value). -/
theorem C3_toggles_return_to_start (c : Canvas) :
    pressKey keyhandlerToggleChannelDisplayMode 3 c = some c ∧
    pressKey keyhandlerGridMode 4 c = some c := by
  obtain ⟨b, ch, n, g⟩ := c
  cases ch <;> cases g <;>
    simp [pressKey, keyhandlerToggleChannelDisplayMode, keyhandlerGridMode,
      ChannelDisplay.toNat, ChannelDisplay.ofNat?, Grid.toNat, Grid.ofNat?]

/-- C9: `keyhandlerToggleChannelDisplayMode` maps `Chan_SeparateColor` to
`Chan_SeparateGrayscale`, `Chan_SeparateGrayscale` to `Chan_RGB` and `Chan_RGB` to
`Chan_SeparateColor`; `keyhandlerGridMode` maps `Grid_None` to `Grid_Sample`,
`Grid_Sample` to `Grid_Batch`, `Grid_Batch` to `Grid_Both` and `Grid_Both` to
`Grid_None`; nothing else of the canvas changes. Both always yield a declared
enumerator, one step forward modulo 3 (resp. 4), different from the mode before. -/
theorem C9_toggles_step_forward (b : List TensorPtr) (n : Normalization) :
    (∀ g, (keyhandlerToggleChannelDisplayMode ⟨b, .Chan_SeparateColor, n, g⟩).map Prod.fst
          = some ⟨b, .Chan_SeparateGrayscale, n, g⟩ ∧
        (keyhandlerToggleChannelDisplayMode ⟨b, .Chan_SeparateGrayscale, n, g⟩).map Prod.fst
          = some ⟨b, .Chan_RGB, n, g⟩ ∧
        (keyhandlerToggleChannelDisplayMode ⟨b, .Chan_RGB, n, g⟩).map Prod.fst
          = some ⟨b, .Chan_SeparateColor, n, g⟩) ∧
    (∀ ch, (keyhandlerGridMode ⟨b, ch, n, .Grid_None⟩).map Prod.fst
          = some ⟨b, ch, n, .Grid_Sample⟩ ∧
        (keyhandlerGridMode ⟨b, ch, n, .Grid_Sample⟩).map Prod.fst
          = some ⟨b, ch, n, .Grid_Batch⟩ ∧
        (keyhandlerGridMode ⟨b, ch, n, .Grid_Batch⟩).map Prod.fst
          = some ⟨b, ch, n, .Grid_Both⟩ ∧
        (keyhandlerGridMode ⟨b, ch, n, .Grid_Both⟩).map Prod.fst
          = some ⟨b, ch, n, .Grid_None⟩) ∧
    (∀ c : Canvas, ∃ c1 evs, keyhandlerToggleChannelDisplayMode c = some (c1, evs) ∧
        c1.channel_display.toNat = (c.channel_display.toNat + 1) % 3 ∧
        c1.channel_display ≠ c.channel_display) ∧
    (∀ c : Canvas, ∃ c1 evs, keyhandlerGridMode c = some (c1, evs) ∧
        c1.grid.toNat = (c.grid.toNat + 1) % 4 ∧
        c1.grid ≠ c.grid) := by
  refine ⟨fun g => ?_, fun ch => ?_, ?_, ?_⟩
  · simp [keyhandlerToggleChannelDisplayMode, ChannelDisplay.toNat, ChannelDisplay.ofNat?]
  · simp [keyhandlerGridMode, Grid.toNat, Grid.ofNat?]
  · rintro ⟨b1, ch, n1, g⟩
    cases ch <;>
      simp [keyhandlerToggleChannelDisplayMode, ChannelDisplay.toNat, ChannelDisplay.ofNat?]
  · rintro ⟨b1, ch, n1, g⟩
    cases g <;> simp [keyhandlerGridMode, Grid.toNat, Grid.ofNat?]

/-! ## Setters: results -/

/-- C2: for every tensor reference `t` and every prior canvas, after
`setSampleSynchronized(t)` or `setSampleUnsynchronized(t)` the `batch_data` of the
canvas is the one-element sequence `[t]`; for every sequence `seq`, after
`setBatchSynchronized(seq)` or `setBatchUnsynchronized(seq)` it equals `seq` (same
length, same elements, same order). -/
theorem C2_setters_store_argument (c : Canvas) (t : TensorPtr) (seq : List TensorPtr) :
    (setSampleSynchronized c t).batch_data = [t] ∧
    (setSampleUnsynchronized c t).batch_data = [t] ∧
    (setBatchSynchronized c seq).batch_data = seq ∧
    (setBatchUnsynchronized c seq).batch_data = seq :=
  ⟨rfl, rfl, rfl, rfl⟩

/-- C6: for every canvas and every argument the synchronized and the unsynchronized
form of a setter leave the same canvas, and the canvas they leave is the same
whatever `batch_data` held before (the whole batch is replaced). -/
theorem C6_setter_forms_agree (c : Canvas) (old : List TensorPtr) (t : TensorPtr)
    (seq : List TensorPtr) :
    (setSampleSynchronized c t = setSampleUnsynchronized c t ∧
      setBatchSynchronized c seq = setBatchUnsynchronized c seq) ∧
    (setSampleSynchronized { c with batch_data := old } t = setSampleSynchronized c t ∧
      setSampleUnsynchronized { c with batch_data := old } t = setSampleUnsynchronized c t ∧
      setBatchSynchronized { c with batch_data := old } seq = setBatchSynchronized c seq ∧
      setBatchUnsynchronized { c with batch_data := old } seq =
        setBatchUnsynchronized c seq) :=
  ⟨⟨rfl, rfl⟩, rfl, rfl, rfl, rfl⟩

/-! ## displayHandler: results -/

/-- C5: when `batch_data` is empty, `displayHandler` logs its trace line, clears the
frame, swaps the buffers and returns, in every channel display mode and every grid
mode: it issues no `draw_filled_rectangle` call and no `draw_grid` call. -/
theorem C5_empty_batch_draws_nothing (NDEBUG : Bool) (glutGetWindow : Int) (winW winH : Nat)
    (ch : ChannelDisplay) (n : Normalization) (g : Grid) :
    displayHandler NDEBUG glutGetWindow winW winH ⟨[], ch, n, g⟩ =
      ([displayTraceLine glutGetWindow, Event.glClearColor 0 0 0 0, Event.glClear,
        Event.glutSwapBuffers], none) ∧
    rectangles (displayHandler NDEBUG glutGetWindow winW winH ⟨[], ch, n, g⟩).1 = [] ∧
    grids (displayHandler NDEBUG glutGetWindow winW winH ⟨[], ch, n, g⟩).1 = [] := by
  refine ⟨rfl, ?_, ?_⟩
  · simp [displayHandler, displayHandlerFrom, rectangles, displayTraceLine, Event.isRectangle]
  · simp [displayHandler, displayHandlerFrom, grids, displayTraceLine, Event.isGrid]

theorem batch_width_two : batch_width 2 = 2 := by decide

theorem batch_height_two : batch_height 2 = 1 := by
  rw [batch_height_eq 2 (by decide)]; decide

theorem batch_width_three : batch_width 3 = 2 := by decide

theorem batch_height_three : batch_height 3 = 2 := by
  rw [batch_height_eq 3 (by decide)]; decide

/-- C4, refuted as stated: on the batch made of a 1 x 1 tensor of depth 1 followed
by a renderable 1 x 1 image of depth 3, `displayHandler` of `WindowRGBTensor<float>`
built with assertions enabled ends at the first sample, on the failed
`assert(depth >= 3)`, after the trace line and the clear: the frame is not
completed, the renderable sample is not drawn, and nothing is reported. -/
theorem C4_shallow_sample_is_not_skipped :
    (Canvas.sample ⟨[⟨1, 1, 1, [1 / 2]⟩, ⟨1, 1, 3, [1, 0, 0]⟩], .Chan_RGB, .Norm_None,
        .Grid_None⟩ 1).Renderable ∧
    displayHandler_eT 24 false 1 512 512
        ⟨[⟨1, 1, 1, [1 / 2]⟩, ⟨1, 1, 3, [1, 0, 0]⟩], .Chan_RGB, .Norm_None, .Grid_None⟩ =
      ([displayTraceLine 1, Event.glClearColor 0 0 0 0, Event.glClear],
        some Fault.assertionFailed) := by
  refine ⟨by decide, ?_⟩
  rw [displayHandler_eT_eq 24 false 1 512 512 _ (by decide) (by decide)]
  simp [displayHandler, displayHandlerFrom, batch_width_two, batch_height_two, forLoop,
    rowBody, sampleBody]

theorem assert_stops_frame_exact (glutGetWindow : Int) (winW winH : Nat)
    (c : Canvas) (k : Nat) (hk : k < c.batch_data.length)
    (hgood : ∀ i, i < k → (c.sample i).Renderable) (hbad : (c.sample k).dim2 < 3) :
    displayHandler false glutGetWindow winW winH c =
      ([displayTraceLine glutGetWindow, Event.glClearColor 0 0 0 0, Event.glClear] ++
        batchRectangles c winW winH k, some Fault.assertionFailed) ∧
    rectangles (displayHandler false glutGetWindow winW winH c).1 =
      batchRectangles c winW winH k ∧
    grids (displayHandler false glutGetWindow winW winH c).1 = [] ∧
    Event.glutSwapBuffers ∉ (displayHandler false glutGetWindow winW winH c).1 := by
  have h := displayHandler_assert glutGetWindow winW winH c k hk hgood hbad
  refine ⟨h, ?_, ?_, ?_⟩
  · rw [h]
    simp only [rectangles, List.filter_append]
    exact (by
      have h1 := rectangles_entryEvents glutGetWindow
      have h2 := rectangles_batchRectangles c winW winH k
      simp only [rectangles] at h1 h2
      rw [h1, h2, List.nil_append])
  · rw [h]
    simp only [grids, List.filter_append]
    exact (by
      have h1 := grids_entryEvents glutGetWindow
      have h2 := grids_batchRectangles c winW winH k
      simp only [grids] at h1 h2
      rw [h1, h2, List.nil_append])
  · rw [h]
    simp only [List.mem_append, not_or]
    constructor
    · simp [entryEvents, displayTraceLine]
    · intro hmem
      have := batchRectangles_isRectangle c winW winH k _ hmem
      simp [Event.isRectangle] at this

/-- C4, amended: let `eT` have a significand of `p ≥ 24` bits (float or double) and
let the batch have fewer than `2 ^ 24` samples, so that `batch_height` computed in
`eT` is the exact ceiling. When sample `k` is the first of the batch with depth below 3 and the
samples before it are renderable, `displayHandler` built with assertions enabled
stops at sample `k` on the failed `assert(depth >= 3)`. It has then issued the trace
line, the clear and the rectangles of samples `0 .. k-1`, and nothing else: no
rectangle for sample `k` or a later one, no grid, no buffer swap, no error report. -/
theorem C4_assert_stops_frame_at_shallow_sample (p : Nat) (glutGetWindow : Int)
    (winW winH : Nat) (c : Canvas) (k : Nat) (hp : 24 ≤ p)
    (hlt : c.batch_data.length < 2 ^ 24) (hk : k < c.batch_data.length)
    (hgood : ∀ i, i < k → (c.sample i).Renderable) (hbad : (c.sample k).dim2 < 3) :
    batch_height_eT p c.batch_data.length = batch_height c.batch_data.length ∧
    displayHandler_eT p false glutGetWindow winW winH c =
      ([displayTraceLine glutGetWindow, Event.glClearColor 0 0 0 0, Event.glClear] ++
        batchRectangles c winW winH k, some Fault.assertionFailed) ∧
    rectangles (displayHandler_eT p false glutGetWindow winW winH c).1 =
      batchRectangles c winW winH k ∧
    grids (displayHandler_eT p false glutGetWindow winW winH c).1 = [] ∧
    Event.glutSwapBuffers ∉ (displayHandler_eT p false glutGetWindow winW winH c).1 := by
  have hltp := lt_two_pow_of_small p _ hp hlt
  refine ⟨batch_height_eT_eq p _ (by omega) (by omega) hltp, ?_⟩
  rw [displayHandler_eT_eq p false glutGetWindow winW winH c (by omega) hltp]
  exact assert_stops_frame_exact glutGetWindow winW winH c k hk hgood hbad

/-- Witness of the amended C4 on `exampleCanvas`, whose sample 1 has depth 1, for
`eT` = float: the two pixels of sample 0 are drawn, then the call stops. -/
theorem C4_assert_stops_frame_at_shallow_sample_witness :
    displayHandler_eT 24 false 7 512 512 exampleCanvas =
      ([displayTraceLine 7, Event.glClearColor 0 0 0 0, Event.glClear,
        Event.draw_filled_rectangle 0 0 256 128 1 3 5 1,
        Event.draw_filled_rectangle 128 0 256 128 2 4 6 1], some Fault.assertionFailed) := by
  rw [(C4_assert_stops_frame_at_shallow_sample 24 7 512 512 exampleCanvas 1 (by decide)
    (by decide) (by decide) (by intro i hi; interval_cases i; decide) (by decide)).2.1]
  simp [exampleCanvas, batchRectangles, Canvas.block, Canvas.sample, sampleRectangles,
    pixelRectangles, drawRGB, batch_width_three, batch_height_three, List.range_succ,
    List.flatMap_cons]
  norm_num

theorem sampleRectangles_colours (ch : ChannelDisplay) (winW winH bw bh bx by_ : Nat)
    (t : Tensor) (ht : t.Renderable) (y x : Nat) (hy : y < t.dim0) (hx : x < t.dim1) :
    ∃ r g b, t.data[y * t.dim1 + x]? = some r ∧
      t.data[y * t.dim1 + x + t.dim0 * t.dim1]? = some g ∧
      t.data[y * t.dim1 + x + 2 * (t.dim0 * t.dim1)]? = some b ∧
      match ch with
      | .Chan_RGB =>
        ((sampleRectangles ch winW winH bw bh bx by_ t)[y * t.dim1 + x]?).bind Event.colour
          = some (r, g, b, 1)
      | .Chan_SeparateColor =>
        ((sampleRectangles ch winW winH bw bh bx by_ t)[3 * (y * t.dim1 + x)]?).bind
            Event.colour = some (r, 0, 0, 1) ∧
        ((sampleRectangles ch winW winH bw bh bx by_ t)[3 * (y * t.dim1 + x) + 1]?).bind
            Event.colour = some (0, g, 0, 1) ∧
        ((sampleRectangles ch winW winH bw bh bx by_ t)[3 * (y * t.dim1 + x) + 2]?).bind
            Event.colour = some (0, 0, b, 1)
      | .Chan_SeparateGrayscale =>
        ((sampleRectangles ch winW winH bw bh bx by_ t)[3 * (y * t.dim1 + x)]?).bind
            Event.colour = some (r, r, r, 1) ∧
        ((sampleRectangles ch winW winH bw bh bx by_ t)[3 * (y * t.dim1 + x) + 1]?).bind
            Event.colour = some (g, g, g, 1) ∧
        ((sampleRectangles ch winW winH bw bh bx by_ t)[3 * (y * t.dim1 + x) + 2]?).bind
            Event.colour = some (b, b, b, 1) := by
  have hlt : y * t.dim1 + x + 2 * (t.dim0 * t.dim1) < t.data.length := by
    rw [ht.1]; exact pixel_index_lt t.dim0 t.dim1 t.dim2 y x ht.2 hy hx
  have h0 : y * t.dim1 + x < t.data.length := by omega
  have h1 : y * t.dim1 + x + t.dim0 * t.dim1 < t.data.length := by omega
  refine ⟨t.data.getD (y * t.dim1 + x) 0, t.data.getD (y * t.dim1 + x + t.dim0 * t.dim1) 0,
    t.data.getD (y * t.dim1 + x + 2 * (t.dim0 * t.dim1)) 0, ?_, ?_, ?_, ?_⟩
  · simp [List.getD_eq_getElem?_getD, List.getElem?_eq_getElem h0]
  · simp [List.getD_eq_getElem?_getD, List.getElem?_eq_getElem h1]
  · simp [List.getD_eq_getElem?_getD, List.getElem?_eq_getElem hlt]
  · cases ch
    · have e0 := sampleRectangles_getElem? .Chan_SeparateColor winW winH bw bh bx by_ t y x 0
        hy hx (by decide)
      have e1 := sampleRectangles_getElem? .Chan_SeparateColor winW winH bw bh bx by_ t y x 1
        hy hx (by decide)
      have e2 := sampleRectangles_getElem? .Chan_SeparateColor winW winH bw bh bx by_ t y x 2
        hy hx (by decide)
      simp only [rectanglesPerPixel, Nat.add_zero] at e0 e1 e2
      simp only [e0, e1, e2]
      exact ⟨rfl, rfl, rfl⟩
    · have e0 := sampleRectangles_getElem? .Chan_SeparateGrayscale winW winH bw bh bx by_ t
        y x 0 hy hx (by decide)
      have e1 := sampleRectangles_getElem? .Chan_SeparateGrayscale winW winH bw bh bx by_ t
        y x 1 hy hx (by decide)
      have e2 := sampleRectangles_getElem? .Chan_SeparateGrayscale winW winH bw bh bx by_ t
        y x 2 hy hx (by decide)
      simp only [rectanglesPerPixel, Nat.add_zero] at e0 e1 e2
      simp only [e0, e1, e2]
      exact ⟨rfl, rfl, rfl⟩
    · have e0 := sampleRectangles_getElem? .Chan_RGB winW winH bw bh bx by_ t y x 0
        hy hx (by decide)
      simp only [rectanglesPerPixel, Nat.add_zero, Nat.one_mul] at e0
      simp only [e0]
      rfl

theorem rectangles_of_each_pixel_exact (NDEBUG : Bool) (glutGetWindow : Int)
    (winW winH : Nat) (c : Canvas) (hN : 1 ≤ c.batch_data.length)
    (hgood : ∀ i, i < c.batch_data.length → (c.sample i).Renderable) :
    rectangles (displayHandler NDEBUG glutGetWindow winW winH c).1 =
      (List.range c.batch_data.length).flatMap (c.block winW winH) ∧
    ∀ i, i < c.batch_data.length →
      (∀ s : Locals,
        sampleBody NDEBUG c winW winH (batch_width c.batch_data.length)
            (batch_height c.batch_data.length) (i / batch_width c.batch_data.length)
            (i % batch_width c.batch_data.length) s =
          Step.next { height := (c.sample i).dim0, width := (c.sample i).dim1,
                      depth := (c.sample i).dim2,
                      events := s.events ++ c.block winW winH i }) ∧
      (c.block winW winH i).length =
        (match c.channel_display with
          | .Chan_RGB => (c.sample i).dim0 * (c.sample i).dim1
          | .Chan_SeparateColor => 3 * ((c.sample i).dim0 * (c.sample i).dim1)
          | .Chan_SeparateGrayscale => 3 * ((c.sample i).dim0 * (c.sample i).dim1)) ∧
      ∀ y x, y < (c.sample i).dim0 → x < (c.sample i).dim1 →
        ∃ r g b, (c.sample i).data[y * (c.sample i).dim1 + x]? = some r ∧
          (c.sample i).data[y * (c.sample i).dim1 + x +
            (c.sample i).dim0 * (c.sample i).dim1]? = some g ∧
          (c.sample i).data[y * (c.sample i).dim1 + x +
            2 * ((c.sample i).dim0 * (c.sample i).dim1)]? = some b ∧
          match c.channel_display with
          | .Chan_RGB =>
            ((c.block winW winH i)[y * (c.sample i).dim1 + x]?).bind Event.colour
              = some (r, g, b, 1)
          | .Chan_SeparateColor =>
            ((c.block winW winH i)[3 * (y * (c.sample i).dim1 + x)]?).bind Event.colour
              = some (r, 0, 0, 1) ∧
            ((c.block winW winH i)[3 * (y * (c.sample i).dim1 + x) + 1]?).bind Event.colour
              = some (0, g, 0, 1) ∧
            ((c.block winW winH i)[3 * (y * (c.sample i).dim1 + x) + 2]?).bind Event.colour
              = some (0, 0, b, 1)
          | .Chan_SeparateGrayscale =>
            ((c.block winW winH i)[3 * (y * (c.sample i).dim1 + x)]?).bind Event.colour
              = some (r, r, r, 1) ∧
            ((c.block winW winH i)[3 * (y * (c.sample i).dim1 + x) + 1]?).bind Event.colour
              = some (g, g, g, 1) ∧
            ((c.block winW winH i)[3 * (y * (c.sample i).dim1 + x) + 2]?).bind Event.colour
              = some (b, b, b, 1) := by
  constructor
  · rw [displayHandler_renderable NDEBUG glutGetWindow winW winH c hN hgood]
    have h1 := rectangles_entryEvents glutGetWindow
    have h2 := rectangles_batchRectangles c winW winH c.batch_data.length
    have h3 := rectangles_drawGrids c.grid c.channel_display (batch_width c.batch_data.length)
      (batch_height c.batch_data.length) (c.sample (c.batch_data.length - 1)).dim1
      (c.sample (c.batch_data.length - 1)).dim0
    simp only [rectangles] at h1 h2 h3 ⊢
    simp only [List.filter_append, h1, h2, h3, List.nil_append, List.append_nil]
    simp [batchRectangles, Event.isRectangle]
  · intro i hi
    refine ⟨fun s => sampleAt_renderable NDEBUG c winW winH _ _ i s hi (hgood i hi), ?_, ?_⟩
    · unfold Canvas.block
      rw [sampleRectangles_length]
      cases c.channel_display <;> simp [rectanglesPerPixel]
    · intro y x hy hx
      exact sampleRectangles_colours c.channel_display winW winH
        (batch_width c.batch_data.length) (batch_height c.batch_data.length)
        (i % batch_width c.batch_data.length) (i / batch_width c.batch_data.length)
        (c.sample i) (hgood i hi) y x hy hx

/-- C10, refuted as stated: on the batch made of a 1 x 1 tensor of depth 2 followed
by a 1 x 1 image of depth 3 with a full buffer, `displayHandler` of
`WindowRGBTensor<float>` built with assertions enabled draws no rectangle at all:
the call ends on the failed `assert(depth >= 3)` at sample 0, so the pixel of the
depth-3 sample gets none of the three rectangles of `Chan_SeparateColor` mode. -/
theorem C10_sample_after_shallow_sample_not_drawn :
    (Canvas.sample ⟨[⟨1, 1, 2, [1 / 2, 1 / 3]⟩, ⟨1, 1, 3, [1, 0, 0]⟩], .Chan_SeparateColor,
        .Norm_None, .Grid_None⟩ 1).Renderable ∧
    rectangles (displayHandler_eT 24 false 1 512 512
        ⟨[⟨1, 1, 2, [1 / 2, 1 / 3]⟩, ⟨1, 1, 3, [1, 0, 0]⟩], .Chan_SeparateColor,
          .Norm_None, .Grid_None⟩).1 = [] := by
  refine ⟨by decide, ?_⟩
  rw [displayHandler_eT_eq 24 false 1 512 512 _ (by decide) (by decide)]
  simp [displayHandler, displayHandlerFrom, batch_width_two, batch_height_two, forLoop,
    rowBody, sampleBody, rectangles, displayTraceLine, Event.isRectangle]

/-- C10, amended: let `eT` have a significand of `p ≥ 24` bits (float or double). For
a non-empty batch of fewer than `2 ^ 24` samples, all of them renderable (full buffer,
depth at least 3), the rectangles drawn by `displayHandler` are the blocks of the
samples in index order, and the pass of the sample loop over sample `i` issues
exactly block `i`. The block of a sample of dimensions `H x W` has `H*W` rectangles
in `Chan_RGB` mode and `3*H*W` in either separate mode. With `r`, `g`, `b` the buffer
elements at `y*W+x`, `y*W+x+H*W`, `y*W+x+2*H*W`: in `Chan_RGB` mode entry `y*W+x` of
the block is the one rectangle of pixel `(x, y)`, coloured `(r, g, b, 1)`; in
`Chan_SeparateColor` mode entries `3*(y*W+x)`, `+1`, `+2` are its three rectangles,
coloured `(r,0,0,1)`, `(0,g,0,1)`, `(0,0,b,1)`; in `Chan_SeparateGrayscale` mode they
are coloured `(r,r,r,1)`, `(g,g,g,1)`, `(b,b,b,1)`. -/
theorem C10_rectangles_of_each_pixel (p : Nat) (NDEBUG : Bool) (glutGetWindow : Int)
    (winW winH : Nat) (c : Canvas) (hp : 24 ≤ p) (hN : 1 ≤ c.batch_data.length)
    (hlt : c.batch_data.length < 2 ^ 24)
    (hgood : ∀ i, i < c.batch_data.length → (c.sample i).Renderable) :
    batch_height_eT p c.batch_data.length = batch_height c.batch_data.length ∧
    rectangles (displayHandler_eT p NDEBUG glutGetWindow winW winH c).1 =
      (List.range c.batch_data.length).flatMap (c.block winW winH) ∧
    ∀ i, i < c.batch_data.length →
      (∀ s : Locals,
        sampleBody NDEBUG c winW winH (batch_width c.batch_data.length)
            (batch_height_eT p c.batch_data.length) (i / batch_width c.batch_data.length)
            (i % batch_width c.batch_data.length) s =
          Step.next { height := (c.sample i).dim0, width := (c.sample i).dim1,
                      depth := (c.sample i).dim2,
                      events := s.events ++ c.block winW winH i }) ∧
      (c.block winW winH i).length =
        (match c.channel_display with
          | .Chan_RGB => (c.sample i).dim0 * (c.sample i).dim1
          | .Chan_SeparateColor => 3 * ((c.sample i).dim0 * (c.sample i).dim1)
          | .Chan_SeparateGrayscale => 3 * ((c.sample i).dim0 * (c.sample i).dim1)) ∧
      ∀ y x, y < (c.sample i).dim0 → x < (c.sample i).dim1 →
        ∃ r g b, (c.sample i).data[y * (c.sample i).dim1 + x]? = some r ∧
          (c.sample i).data[y * (c.sample i).dim1 + x +
            (c.sample i).dim0 * (c.sample i).dim1]? = some g ∧
          (c.sample i).data[y * (c.sample i).dim1 + x +
            2 * ((c.sample i).dim0 * (c.sample i).dim1)]? = some b ∧
          match c.channel_display with
          | .Chan_RGB =>
            ((c.block winW winH i)[y * (c.sample i).dim1 + x]?).bind Event.colour
              = some (r, g, b, 1)
          | .Chan_SeparateColor =>
            ((c.block winW winH i)[3 * (y * (c.sample i).dim1 + x)]?).bind Event.colour
              = some (r, 0, 0, 1) ∧
            ((c.block winW winH i)[3 * (y * (c.sample i).dim1 + x) + 1]?).bind Event.colour
              = some (0, g, 0, 1) ∧
            ((c.block winW winH i)[3 * (y * (c.sample i).dim1 + x) + 2]?).bind Event.colour
              = some (0, 0, b, 1)
          | .Chan_SeparateGrayscale =>
            ((c.block winW winH i)[3 * (y * (c.sample i).dim1 + x)]?).bind Event.colour
              = some (r, r, r, 1) ∧
            ((c.block winW winH i)[3 * (y * (c.sample i).dim1 + x) + 1]?).bind Event.colour
              = some (g, g, g, 1) ∧
            ((c.block winW winH i)[3 * (y * (c.sample i).dim1 + x) + 2]?).bind Event.colour
              = some (b, b, b, 1) := by
  have hltp := lt_two_pow_of_small p _ hp hlt
  have heq := batch_height_eT_eq p c.batch_data.length (by omega) hN hltp
  refine ⟨heq, ?_⟩
  rw [displayHandler_eT_eq p NDEBUG glutGetWindow winW winH c (by omega) hltp, heq]
  exact rectangles_of_each_pixel_exact NDEBUG glutGetWindow winW winH c hN hgood

/-- Witness of the amended C10 on `exampleRenderableCanvas`, for `eT` = float: two
1 x 2 images shown as separate coloured channels in a 512 x 512 window give twelve
rectangles. -/
theorem C10_rectangles_of_each_pixel_witness :
    rectangles (displayHandler_eT 24 false 7 512 512 exampleRenderableCanvas).1 =
      [ Event.draw_filled_rectangle 0 0 512 (128 / 3) 1 0 0 1,
        Event.draw_filled_rectangle (256 / 3) 0 512 (128 / 3) 0 3 0 1,
        Event.draw_filled_rectangle (512 / 3) 0 512 (128 / 3) 0 0 5 1,
        Event.draw_filled_rectangle (128 / 3) 0 512 (128 / 3) 2 0 0 1,
        Event.draw_filled_rectangle 128 0 512 (128 / 3) 0 4 0 1,
        Event.draw_filled_rectangle (640 / 3) 0 512 (128 / 3) 0 0 6 1,
        Event.draw_filled_rectangle 256 0 512 (128 / 3) 6 0 0 1,
        Event.draw_filled_rectangle (1024 / 3) 0 512 (128 / 3) 0 4 0 1,
        Event.draw_filled_rectangle (1280 / 3) 0 512 (128 / 3) 0 0 2 1,
        Event.draw_filled_rectangle (896 / 3) 0 512 (128 / 3) 5 0 0 1,
        Event.draw_filled_rectangle 384 0 512 (128 / 3) 0 3 0 1,
        Event.draw_filled_rectangle (1408 / 3) 0 512 (128 / 3) 0 0 1 1 ] := by
  rw [(C10_rectangles_of_each_pixel 24 false 7 512 512 exampleRenderableCanvas (by decide)
    (by decide) (by decide)
    (by intro i hi; have hi2 : i < 2 := hi; interval_cases i <;> decide)).2.1]
  simp [exampleRenderableCanvas, Canvas.block, Canvas.sample, sampleRectangles,
    pixelRectangles, drawSeparateColor, batch_width_two, batch_height_two, List.range_succ,
    List.flatMap_cons]
  norm_num

/-! ## displayHandler: buffer reads -/

theorem sample_singleton (t : Tensor) (ch : ChannelDisplay) (n : Normalization) (g : Grid) :
    Canvas.sample ⟨[t], ch, n, g⟩ 0 = t := rfl

/-- C14: for every tensor of dimensions `H x W x D` with `D ≥ 3` whose buffer holds
`H*W*D` elements, the three element indices read for a pixel `(x, y)` with `x < W`,
`y < H`, namely `y*W+x`, `y*W+x+H*W` and `y*W+x+2*H*W`, are below `H*W*D`, so the three
reads succeed; hence in each of the three channel display modes the pixel loops of
the sample, and `displayHandler` on the batch made of that tensor, end without an
out-of-bounds read. -/
theorem C14_reads_stay_inside_buffer (t : Tensor) (hbuf : t.WellFormed) (hD : 3 ≤ t.dim2) :
    (∀ y x, y < t.dim0 → x < t.dim1 →
      (y * t.dim1 + x < t.dim0 * t.dim1 * t.dim2 ∧
        y * t.dim1 + x + t.dim0 * t.dim1 < t.dim0 * t.dim1 * t.dim2 ∧
        y * t.dim1 + x + 2 * (t.dim0 * t.dim1) < t.dim0 * t.dim1 * t.dim2) ∧
      ∃ red green blue, readChannels t.data t.dim0 t.dim1 y x = some (red, green, blue) ∧
        t.data[y * t.dim1 + x]? = some red ∧
        t.data[y * t.dim1 + x + t.dim0 * t.dim1]? = some green ∧
        t.data[y * t.dim1 + x + 2 * (t.dim0 * t.dim1)]? = some blue) ∧
    (∀ (ch : ChannelDisplay) (winW winH bw bh bx by_ : Nat) (events : List Event),
      (drawSample ch winW winH bw bh bx by_ t.data t.dim0 t.dim1 events).2 = none) ∧
    (∀ (NDEBUG : Bool) (glutGetWindow : Int) (winW winH : Nat) (ch : ChannelDisplay)
        (n : Normalization) (g : Grid),
      (displayHandler NDEBUG glutGetWindow winW winH ⟨[t], ch, n, g⟩).2 = none) := by
  refine ⟨?_, ?_, ?_⟩
  · intro y x hy hx
    have h2 := pixel_index_lt t.dim0 t.dim1 t.dim2 y x hD hy hx
    have hlen : y * t.dim1 + x + 2 * (t.dim0 * t.dim1) < t.data.length := by
      rw [hbuf]; exact h2
    have hl0 : y * t.dim1 + x < t.data.length := by omega
    have hl1 : y * t.dim1 + x + t.dim0 * t.dim1 < t.data.length := by omega
    refine ⟨⟨by omega, by omega, h2⟩, _, _, _,
      readChannels_of_lt t.data t.dim0 t.dim1 y x hlen, ?_, ?_, ?_⟩
    · simp [List.getD_eq_getElem?_getD, List.getElem?_eq_getElem hl0]
    · simp [List.getD_eq_getElem?_getD, List.getElem?_eq_getElem hl1]
    · simp [List.getD_eq_getElem?_getD, List.getElem?_eq_getElem hlen]
  · intro ch winW winH bw bh bx by_ events
    rw [drawSample_of_renderable ch winW winH bw bh bx by_ t events ⟨hbuf, hD⟩]
  · intro NDEBUG glutGetWindow winW winH ch n g
    rw [displayHandler_renderable NDEBUG glutGetWindow winW winH ⟨[t], ch, n, g⟩
      (by simp) (by
        intro i hi
        have hi0 : i = 0 := by simpa using hi
        subst hi0
        rw [sample_singleton]
        exact ⟨hbuf, hD⟩)]

/-- Witness of C14 on a 1 x 2 image with three channels: the pixel loops end without
a fault in `Chan_SeparateGrayscale` mode. -/
theorem C14_reads_stay_inside_buffer_witness :
    (drawSample .Chan_SeparateGrayscale 512 512 1 1 0 0
      [1, 2, 3, 4, 5, 6] 1 2 []).2 = none :=
  (C14_reads_stay_inside_buffer ⟨1, 2, 3, [1, 2, 3, 4, 5, 6]⟩ (by decide) (by decide)).2.1
    .Chan_SeparateGrayscale 512 512 1 1 0 0 []

/-! ## displayHandler: grid overlay -/

theorem batch_width_one : batch_width 1 = 1 := by decide

theorem batch_height_one : batch_height 1 = 1 := by
  rw [batch_height_eq 1 (by decide)]; decide

theorem grids_drawGrids (g : Grid) (ch : ChannelDisplay) (bw bh w h : Nat) :
    grids (drawGrids g ch bw bh w h) = drawGrids g ch bw bh w h := by
  cases g <;> cases ch <;> rfl

theorem grids_displayHandler_renderable (NDEBUG : Bool) (glutGetWindow : Int)
    (winW winH : Nat) (c : Canvas) (hN : 1 ≤ c.batch_data.length)
    (hgood : ∀ i, i < c.batch_data.length → (c.sample i).Renderable) :
    grids (displayHandler NDEBUG glutGetWindow winW winH c).1 =
      drawGrids c.grid c.channel_display (batch_width c.batch_data.length)
        (batch_height c.batch_data.length) (c.sample (c.batch_data.length - 1)).dim1
        (c.sample (c.batch_data.length - 1)).dim0 := by
  rw [displayHandler_renderable NDEBUG glutGetWindow winW winH c hN hgood]
  have h1 := grids_entryEvents glutGetWindow
  have h2 := grids_batchRectangles c winW winH c.batch_data.length
  have h3 := grids_drawGrids c.grid c.channel_display (batch_width c.batch_data.length)
    (batch_height c.batch_data.length) (c.sample (c.batch_data.length - 1)).dim1
    (c.sample (c.batch_data.length - 1)).dim0
  simp only [grids] at h1 h2 h3 ⊢
  simp only [List.filter_append, h1, h2, h3, List.nil_append]
  simp [Event.isGrid]

theorem wrap_size_t_of_lt (n : Nat) (h : n < 2 ^ 64) : wrap_size_t n = n :=
  Nat.mod_eq_of_lt h

/-- C11, refuted as stated: on the batch made of one 2 x 2 tensor of depth 1, with
the grid mode `Grid_Batch`, `displayHandler` of `WindowRGBTensor<float>` built with
assertions enabled issues no `draw_grid` call at all: the call ends in the sample
loop, on the failed `assert(depth >= 3)`, before the grid is reached. -/
theorem C11_no_grid_after_shallow_sample :
    displayHandler_eT 24 false 1 512 512
        ⟨[⟨2, 2, 1, [1, 2, 3, 4]⟩], .Chan_RGB, .Norm_None, .Grid_Batch⟩ =
      ([displayTraceLine 1, Event.glClearColor 0 0 0 0, Event.glClear],
        some Fault.assertionFailed) ∧
    grids (displayHandler_eT 24 false 1 512 512
        ⟨[⟨2, 2, 1, [1, 2, 3, 4]⟩], .Chan_RGB, .Norm_None, .Grid_Batch⟩).1 = [] := by
  have h1 : displayHandler_eT 24 false 1 512 512
      ⟨[⟨2, 2, 1, [1, 2, 3, 4]⟩], .Chan_RGB, .Norm_None, .Grid_Batch⟩ =
      ([displayTraceLine 1, Event.glClearColor 0 0 0 0, Event.glClear],
        some Fault.assertionFailed) := by
    rw [displayHandler_eT_eq 24 false 1 512 512 _ (by decide) (by decide)]
    simp [displayHandler, displayHandlerFrom, batch_width_one, batch_height_one, forLoop,
      rowBody, sampleBody]
  refine ⟨h1, ?_⟩
  rw [h1]; simp [grids, displayTraceLine, Event.isGrid]

/-- C11, amended: let `eT` have a significand of `p ≥ 24` bits (float or double). For
every non-empty batch of fewer than `2 ^ 24` samples that all have height `H`, width `W`,
depth at least 3 and a full buffer, and such that the products `batch_width*W*k`
(`k = 1` in `Chan_RGB` mode, `k = 3` in the separate-channel modes) and
`batch_height*H` are below `2 ^ 64`, `displayHandler` completes and its `draw_grid`
calls are determined by the grid mode. `Grid_None`: none. `Grid_Sample`: one call,
with `batch_width*W` columns and `batch_height*H` rows in `Chan_RGB` mode and
`batch_width*W*3` columns and `batch_height*H` rows in either separate-channel mode.
`Grid_Batch`: one call with `batch_width` columns, `batch_height` rows and stroke
width 4.0. `Grid_Both`: the `Grid_Sample` call followed by the `Grid_Batch` call. -/
theorem C11_grid_overlay_by_mode (p : Nat) (NDEBUG : Bool) (glutGetWindow : Int)
    (winW winH : Nat) (c : Canvas) (H W : Nat) (hp : 24 ≤ p)
    (hN : 1 ≤ c.batch_data.length) (hlt : c.batch_data.length < 2 ^ 24)
    (hgood : ∀ i, i < c.batch_data.length → (c.sample i).Renderable)
    (hH : ∀ i, i < c.batch_data.length → (c.sample i).dim0 = H)
    (hW : ∀ i, i < c.batch_data.length → (c.sample i).dim1 = W)
    (hcols : batch_width c.batch_data.length * W * rectanglesPerPixel c.channel_display <
      2 ^ 64)
    (hrows : batch_height_eT p c.batch_data.length * H < 2 ^ 64) :
    batch_height_eT p c.batch_data.length = batch_height c.batch_data.length ∧
    (displayHandler_eT p NDEBUG glutGetWindow winW winH c).2 = none ∧
    grids (displayHandler_eT p NDEBUG glutGetWindow winW winH c).1 =
      match c.grid, c.channel_display with
      | .Grid_None, _ => []
      | .Grid_Sample, .Chan_RGB =>
        [Event.draw_grid 0.3 0.8 0.3 0.3 (batch_width c.batch_data.length * W)
          (batch_height_eT p c.batch_data.length * H) none]
      | .Grid_Sample, _ =>
        [Event.draw_grid 0.3 0.8 0.3 0.3 (batch_width c.batch_data.length * W * 3)
          (batch_height_eT p c.batch_data.length * H) none]
      | .Grid_Batch, _ =>
        [Event.draw_grid 0.3 0.8 0.3 0.3 (batch_width c.batch_data.length)
          (batch_height_eT p c.batch_data.length) (some 4.0)]
      | .Grid_Both, .Chan_RGB =>
        [Event.draw_grid 0.3 0.8 0.3 0.3 (batch_width c.batch_data.length * W)
          (batch_height_eT p c.batch_data.length * H) none,
         Event.draw_grid 0.3 0.8 0.3 0.3 (batch_width c.batch_data.length)
          (batch_height_eT p c.batch_data.length) (some 4.0)]
      | .Grid_Both, _ =>
        [Event.draw_grid 0.3 0.8 0.3 0.3 (batch_width c.batch_data.length * W * 3)
          (batch_height_eT p c.batch_data.length * H) none,
         Event.draw_grid 0.3 0.8 0.3 0.3 (batch_width c.batch_data.length)
          (batch_height_eT p c.batch_data.length) (some 4.0)] := by
  have hltp := lt_two_pow_of_small p _ hp hlt
  have heq := batch_height_eT_eq p c.batch_data.length (by omega) hN hltp
  refine ⟨heq, ?_, ?_⟩
  · rw [displayHandler_eT_eq p NDEBUG glutGetWindow winW winH c (by omega) hltp,
      displayHandler_renderable NDEBUG glutGetWindow winW winH c hN hgood]
  · rw [displayHandler_eT_eq p NDEBUG glutGetWindow winW winH c (by omega) hltp,
      grids_displayHandler_renderable NDEBUG glutGetWindow winW winH c hN hgood,
      hH (c.batch_data.length - 1) (by omega), hW (c.batch_data.length - 1) (by omega)]
    rw [heq] at hrows ⊢
    have hr := wrap_size_t_of_lt _ hrows
    revert hcols
    cases c.grid <;> cases c.channel_display <;> intro hcols <;>
      simp only [rectanglesPerPixel, Nat.mul_one] at hcols <;>
      simp only [drawGrids, sampleGrid, hr] <;>
      first
        | rfl
        | (have h1 : batch_width c.batch_data.length * W < 2 ^ 64 := by omega
           rw [wrap_size_t_of_lt _ h1, wrap_size_t_of_lt _ hcols])
        | rw [wrap_size_t_of_lt _ hcols]

/-- Witness of the amended C11 on `exampleRenderableCanvas`, for `eT` = float: two
1 x 2 images in `Chan_SeparateColor` mode with `Grid_Both` give a 12 x 1 sample grid
followed by the 2 x 1 batch grid. -/
theorem C11_grid_overlay_by_mode_witness :
    grids (displayHandler_eT 24 false 7 512 512 exampleRenderableCanvas).1 =
      [Event.draw_grid 0.3 0.8 0.3 0.3 12 1 none,
       Event.draw_grid 0.3 0.8 0.3 0.3 2 1 (some 4.0)] := by
  have heq : batch_height_eT 24 2 = 1 := by
    rw [batch_height_eT_eq 24 2 (by decide) (by decide) (by decide), batch_height_two]
  have hlen : exampleRenderableCanvas.batch_data.length = 2 := rfl
  rw [(C11_grid_overlay_by_mode 24 false 7 512 512 exampleRenderableCanvas 1 2 (by decide)
    (by decide) (by decide)
    (by intro i hi; have hi2 : i < 2 := hi; interval_cases i <;> decide)
    (by intro i hi; have hi2 : i < 2 := hi; interval_cases i <;> rfl)
    (by intro i hi; have hi2 : i < 2 := hi; interval_cases i <;> rfl)
    (by rw [hlen, batch_width_two]; decide)
    (by rw [hlen, heq]; decide)).2.2]
  simp [exampleRenderableCanvas, batch_width_two, heq]

/-! ## displayHandler: order of the samples -/

theorem forLoop_all_next_fold {σ : Type} (body : Nat → σ → Step σ) (g : Nat → σ → σ) :
    ∀ (count i : Nat) (s : σ),
    (∀ j, i ≤ j → j < i + count → ∀ s1, body j s1 = Step.next (g j s1)) →
    forLoop body count i s = ((List.range' i count).foldl (fun s1 j => g j s1) s, none) := by
  intro count
  induction count with
  | zero => intro i s _; simp [forLoop]
  | succ k ih =>
    intro i s h
    simp only [forLoop, h i (le_refl i) (by omega) s]
    rw [ih (i + 1) (g i s) (fun j h1 h2 s1 => h j (by omega) (by omega) s1)]
    simp [List.range'_succ]

theorem guardedBody_leave {σ : Type} (N bw : Nat) (visit : Nat → Nat → Nat → σ → Step σ)
    (by_ bx : Nat) (s : σ) (h : N ≤ by_ * bw + bx) :
    guardedBody N bw visit by_ bx s = Step.leave s := by
  simp [guardedBody, h]

theorem guardedBody_of_lt {σ : Type} (N bw : Nat) (visit : Nat → Nat → Nat → σ → Step σ)
    (i : Nat) (s : σ) (h : i < N) :
    guardedBody N bw visit (i / bw) (i % bw) s = visit i (i % bw) (i / bw) s := by
  have hn : ¬ (i ≥ N) := by omega
  simp only [guardedBody, cell_index, hn, if_false]

theorem guarded_row_eq_linear {σ : Type} (N bw : Nat)
    (visit : Nat → Nat → Nat → σ → Step σ) (r : Nat) (s : σ) (hbw : 0 < bw) :
    forLoop (guardedBody N bw visit r) bw 0 s =
      forLoop (fun i => guardedBody N bw visit (i / bw) (i % bw))
        (min bw (N - r * bw)) (r * bw) s := by
  have h1 : forLoop (guardedBody N bw visit r) bw 0 s =
      forLoop (fun j => (fun i => guardedBody N bw visit (i / bw) (i % bw)) (r * bw + j))
        bw 0 s := by
    apply forLoop_congr
    intro j _ hj s1
    have hdiv : (r * bw + j) / bw = r := by
      rw [Nat.mul_comm, Nat.mul_add_div hbw, Nat.div_eq_of_lt (by omega)]; rfl
    have hmod : (r * bw + j) % bw = j := by
      rw [Nat.mul_comm, Nat.mul_add_mod, Nat.mod_eq_of_lt (by omega)]
    simp only [hdiv, hmod]
  rw [h1, forLoop_shift (fun i => guardedBody N bw visit (i / bw) (i % bw)) (r * bw) bw 0 s,
    forLoop_cut (fun i => guardedBody N bw visit (i / bw) (i % bw)) N
      (fun j hj s1 => guardedBody_leave N bw visit _ _ s1 (by rw [cell_index]; exact hj))]
  rfl

theorem guarded_rows_eq_linear {σ : Type} (N bw : Nat)
    (visit : Nat → Nat → Nat → σ → Step σ) (hbw : 0 < bw)
    (hnl : ∀ i, i < N → ∀ s1 s2, visit i (i % bw) (i / bw) s1 ≠ Step.leave s2) :
    ∀ (k r : Nat) (s : σ),
    forLoop (fun by_ s1 =>
        match forLoop (guardedBody N bw visit by_) bw 0 s1 with
        | (s2, none) => Step.next s2
        | (s2, some f) => Step.stop s2 f) k r s =
      forLoop (fun i => guardedBody N bw visit (i / bw) (i % bw))
        (min (k * bw) (N - r * bw)) (r * bw) s := by
  intro k
  induction k with
  | zero => intro r s; simp [forLoop]
  | succ k ih =>
    intro r s
    have hsplit : min ((k + 1) * bw) (N - r * bw) =
        min bw (N - r * bw) + min (k * bw) (N - (r + 1) * bw) := by
      rw [Nat.add_mul, Nat.add_mul]
      omega
    rw [hsplit, forLoop_add (fun i => guardedBody N bw visit (i / bw) (i % bw)) _ _ (r * bw) s
      (fun j h1 h2 s1 s2 => by
        show guardedBody N bw visit (j / bw) (j % bw) s1 ≠ Step.leave s2
        rw [guardedBody_of_lt N bw visit j s1 (by omega)]
        exact hnl j (by omega) s1 s2)]
    simp only [forLoop]
    rw [guarded_row_eq_linear N bw visit r s hbw]
    rcases hres : forLoop (fun i => guardedBody N bw visit (i / bw) (i % bw))
        (min bw (N - r * bw)) (r * bw) s with ⟨s1, _ | f⟩
    · simp only []
      rw [ih (r + 1) s1]
      by_cases hfull : bw ≤ N - r * bw
      · have : r * bw + min bw (N - r * bw) = (r + 1) * bw := by
          rw [Nat.add_mul]; omega
        rw [this]
      · have h0 : min (k * bw) (N - (r + 1) * bw) = 0 := by
          rw [Nat.add_mul]; omega
        rw [h0]
        simp [forLoop]
    · rfl

theorem batch_grid_covers (N : Nat) (hN : 1 ≤ N) : N ≤ batch_height N * batch_width N := by
  have hw : 1 ≤ batch_width N := ceilSqrt_pos N hN
  rw [batch_height_eq N hN]
  set w := batch_width N
  have h2 := Nat.div_add_mod (N + w - 1) w
  have h3 : (N + w - 1) % w < w := Nat.mod_lt _ (by omega)
  have h4 : w * ((N + w - 1) / w) = (N + w - 1) / w * w := Nat.mul_comm _ _
  omega

/-- When every visit goes on to the next sample, the nested loops fold the visits
over the sample indices `0, 1, ..., N-1`, sample `i` in cell
`(i % batch_width, i / batch_width)`. -/
theorem cellLoops_all_next {σ : Type} (N : Nat) (hN : 1 ≤ N)
    (visit : Nat → Nat → Nat → σ → Step σ) (g : Nat → σ → σ)
    (hnext : ∀ i, i < N → ∀ s,
      visit i (i % batch_width N) (i / batch_width N) s = Step.next (g i s)) (s : σ) :
    cellLoops N (batch_width N) (batch_height N) visit s =
      ((List.range N).foldl (fun s1 i => g i s1) s, none) := by
  have hbw : 0 < batch_width N := ceilSqrt_pos N hN
  unfold cellLoops
  rw [guarded_rows_eq_linear N (batch_width N) visit hbw
    (fun i hi s1 s2 => by rw [hnext i hi s1]; simp)]
  have hcover := batch_grid_covers N hN
  have hmin : min (batch_height N * batch_width N) (N - 0 * batch_width N) = N := by
    simp only [Nat.zero_mul, Nat.sub_zero]; omega
  rw [hmin, Nat.zero_mul, List.range_eq_range']
  apply forLoop_all_next_fold
  intro j _ hj s1
  show guardedBody N (batch_width N) visit (j / batch_width N) (j % batch_width N) s1 = _
  rw [guardedBody_of_lt N (batch_width N) visit j s1 (by omega)]
  exact hnext j (by omega) s1

theorem sampleBody_eq_guardedBody (NDEBUG : Bool) (c : Canvas) (winW winH bw bh : Nat)
    (by_ bx : Nat) (s : Locals) :
    sampleBody NDEBUG c winW winH bw bh by_ bx s =
      guardedBody c.batch_data.length bw (renderVisit NDEBUG c winW winH bw bh) by_ bx s := by
  by_cases h : c.batch_data.length ≤ by_ * bw + bx
  · rw [sampleBody_leave NDEBUG c winW winH bw bh by_ bx s h,
      guardedBody_leave _ _ _ _ _ _ h]
  · have hlt : by_ * bw + bx < c.batch_data.length := by omega
    have hn : ¬ (by_ * bw + bx ≥ c.batch_data.length) := by omega
    rw [sampleBody_of_lt NDEBUG c winW winH bw bh by_ bx s hlt]
    simp only [guardedBody, hn, if_false, renderVisit]

theorem rowLoops_eq_cellLoops (NDEBUG : Bool) (c : Canvas) (winW winH bw bh : Nat)
    (s : Locals) :
    forLoop (rowBody NDEBUG c winW winH bw bh) bh 0 s =
      cellLoops c.batch_data.length bw bh (renderVisit NDEBUG c winW winH bw bh) s := by
  unfold cellLoops
  apply forLoop_congr
  intro r _ _ s1
  have hrow : forLoop (sampleBody NDEBUG c winW winH bw bh r) bw 0 s1 =
      forLoop (guardedBody c.batch_data.length bw (renderVisit NDEBUG c winW winH bw bh) r)
        bw 0 s1 :=
    forLoop_congr _ _ bw 0 s1
      (fun j _ _ s2 => sampleBody_eq_guardedBody NDEBUG c winW winH bw bh r j s2)
  simp only [rowBody, hrow]
  rcases forLoop (guardedBody c.batch_data.length bw (renderVisit NDEBUG c winW winH bw bh) r)
      bw 0 s1 with ⟨s2, _ | f⟩ <;> rfl

theorem renderVisit_renderable (NDEBUG : Bool) (c : Canvas) (winW winH bw bh i bx by_ : Nat)
    (s : Locals) (ht : (c.sample i).Renderable) :
    renderVisit NDEBUG c winW winH bw bh i bx by_ s =
      Step.next { height := (c.sample i).dim0, width := (c.sample i).dim1,
                  depth := (c.sample i).dim2,
                  events := s.events ++
                    sampleRectangles c.channel_display winW winH bw bh bx by_ (c.sample i) } := by
  have hd : decide ((c.sample i).dim2 ≥ 3) = true := by simpa using ht.2
  simp only [renderVisit, hd, Bool.not_true, Bool.and_false, Bool.false_eq_true, if_false,
    drawSample_of_renderable c.channel_display winW winH bw bh bx by_ (c.sample i) s.events ht]

theorem foldl_blocks (c : Canvas) (winW winH : Nat) (s : Locals) : ∀ n : Nat,
    (List.range (n + 1)).foldl (fun (s1 : Locals) i =>
        ({ height := (c.sample i).dim0, width := (c.sample i).dim1,
           depth := (c.sample i).dim2,
           events := s1.events ++ c.block winW winH i } : Locals)) s =
      localsAfter c winW winH (n + 1) s := by
  intro n
  induction n with
  | zero => simp [localsAfter, batchRectangles, List.range_succ]
  | succ k ih =>
    rw [List.range_succ, List.foldl_append, ih]
    simp [localsAfter, batchRectangles, List.range_succ, List.flatMap_append]

theorem foldl_traced {σ : Type} (g : Nat → σ → σ) (f : Nat → Nat × Nat × Nat) (s : σ)
    (l : List (Nat × Nat × Nat)) : ∀ n : Nat,
    (List.range n).foldl (fun (p : σ × List (Nat × Nat × Nat)) i =>
        (g i p.1, p.2 ++ [f i])) (s, l) =
      ((List.range n).foldl (fun s1 i => g i s1) s, l ++ (List.range n).map f) := by
  intro n
  induction n with
  | zero => simp
  | succ k ih =>
    rw [List.range_succ, List.foldl_append, ih]
    simp [List.foldl_append]

/-- With `batch_height` taken in exact arithmetic: for every batch of `N ≥ 1`
renderable samples, the nested loops of `displayHandler` over `(by_, bx)`, whose bound check only leaves the inner loop, are
the loop skeleton `cellLoops` run with the work on a sample (`renderVisit`). Logging
each index entered with its cell gives exactly `(i, i mod batch_width,
i div batch_width)` for `i = 0, 1, ..., N-1` in this order: every sample is visited
once, no index `≥ N` is dereferenced, and sample `i` sits in cell
`(bx, by_) = (i mod batch_width, i div batch_width)`. The rectangles drawn are the
blocks of samples `0, 1, ..., N-1` in this order. -/
theorem samples_visited_in_index_order_exact (NDEBUG : Bool) (glutGetWindow : Int)
    (winW winH : Nat) (c : Canvas) (hN : 1 ≤ c.batch_data.length)
    (hgood : ∀ i, i < c.batch_data.length → (c.sample i).Renderable) :
    (∀ s : Locals,
      forLoop (rowBody NDEBUG c winW winH (batch_width c.batch_data.length)
          (batch_height c.batch_data.length)) (batch_height c.batch_data.length) 0 s =
        cellLoops c.batch_data.length (batch_width c.batch_data.length)
          (batch_height c.batch_data.length)
          (renderVisit NDEBUG c winW winH (batch_width c.batch_data.length)
            (batch_height c.batch_data.length)) s) ∧
    (∀ s : Locals,
      cellLoops c.batch_data.length (batch_width c.batch_data.length)
          (batch_height c.batch_data.length)
          (tracedVisit (renderVisit NDEBUG c winW winH (batch_width c.batch_data.length)
            (batch_height c.batch_data.length))) (s, []) =
        ((localsAfter c winW winH c.batch_data.length s,
          (List.range c.batch_data.length).map (fun i =>
            (i, i % batch_width c.batch_data.length, i / batch_width c.batch_data.length))),
          none)) ∧
    (∀ s : Locals,
      cellLoops c.batch_data.length (batch_width c.batch_data.length)
          (batch_height c.batch_data.length)
          (renderVisit NDEBUG c winW winH (batch_width c.batch_data.length)
            (batch_height c.batch_data.length)) s =
        (localsAfter c winW winH c.batch_data.length s, none)) ∧
    rectangles (displayHandler NDEBUG glutGetWindow winW winH c).1 =
      (List.range c.batch_data.length).flatMap (c.block winW winH) := by
  obtain ⟨n, hn⟩ : ∃ n, c.batch_data.length = n + 1 := ⟨c.batch_data.length - 1, by omega⟩
  have hvisit : ∀ i, i < c.batch_data.length → ∀ s : Locals,
      renderVisit NDEBUG c winW winH (batch_width c.batch_data.length)
          (batch_height c.batch_data.length) i (i % batch_width c.batch_data.length)
          (i / batch_width c.batch_data.length) s =
        Step.next { height := (c.sample i).dim0, width := (c.sample i).dim1,
                    depth := (c.sample i).dim2,
                    events := s.events ++ c.block winW winH i } :=
    fun i hi s => renderVisit_renderable NDEBUG c winW winH _ _ i _ _ s (hgood i hi)
  refine ⟨fun s => rowLoops_eq_cellLoops NDEBUG c winW winH _ _ s, ?_, ?_, ?_⟩
  · intro s
    rw [cellLoops_all_next c.batch_data.length hN _
      (fun i (p : Locals × List (Nat × Nat × Nat)) =>
        (({ height := (c.sample i).dim0, width := (c.sample i).dim1,
            depth := (c.sample i).dim2,
            events := p.1.events ++ c.block winW winH i } : Locals),
          p.2 ++ [(i, i % batch_width c.batch_data.length,
            i / batch_width c.batch_data.length)]))
      (fun i hi p => by simp only [tracedVisit, hvisit i hi p.1]) (s, [])]
    rw [foldl_traced (fun i (s1 : Locals) =>
        ({ height := (c.sample i).dim0, width := (c.sample i).dim1,
           depth := (c.sample i).dim2,
           events := s1.events ++ c.block winW winH i } : Locals))
      (fun i => (i, i % batch_width c.batch_data.length,
        i / batch_width c.batch_data.length)) s [] c.batch_data.length]
    have hf := foldl_blocks c winW winH s n
    rw [← hn] at hf
    rw [hf, List.nil_append]
  · intro s
    rw [cellLoops_all_next c.batch_data.length hN _
      (fun i (s1 : Locals) =>
        ({ height := (c.sample i).dim0, width := (c.sample i).dim1,
           depth := (c.sample i).dim2,
           events := s1.events ++ c.block winW winH i } : Locals))
      (fun i hi s1 => hvisit i hi s1) s]
    have hf := foldl_blocks c winW winH s n
    rw [← hn] at hf
    rw [hf]
  · rw [displayHandler_renderable NDEBUG glutGetWindow winW winH c hN hgood]
    have h1 := rectangles_entryEvents glutGetWindow
    have h2 := rectangles_batchRectangles c winW winH c.batch_data.length
    have h3 := rectangles_drawGrids c.grid c.channel_display (batch_width c.batch_data.length)
      (batch_height c.batch_data.length) (c.sample (c.batch_data.length - 1)).dim1
      (c.sample (c.batch_data.length - 1)).dim0
    simp only [rectangles] at h1 h2 h3 ⊢
    simp only [List.filter_append, h1, h2, h3, List.nil_append, List.append_nil]
    simp [batchRectangles, Event.isRectangle]

/-- On `exampleThreeCanvas` three samples in a 2 x 2 grid are entered
as index 0 in cell (0, 0), index 1 in cell (1, 0) and index 2 in cell (0, 1); the
fourth cell is left by the bound check. -/
theorem samples_visited_in_index_order_exact_three :
    (cellLoops 3 2 2 (tracedVisit (renderVisit false exampleThreeCanvas 512 512 2 2))
      (({ height := 0, width := 0, depth := 0, events := [] } : Locals), [])).1.2 =
      [(0, 0, 0), (1, 1, 0), (2, 0, 1)] := by
  have h := (samples_visited_in_index_order_exact false 7 512 512 exampleThreeCanvas
    (by decide)
    (by intro i hi; have hi3 : i < 3 := hi; interval_cases i <;> decide)).2.1
    { height := 0, width := 0, depth := 0, events := [] }
  have hlen : exampleThreeCanvas.batch_data.length = 3 := rfl
  simp only [hlen, batch_width_three, batch_height_three] at h
  rw [h]
  decide

/-! ## displayHandler: a batch that the grid computed in float does not cover -/

/-- When every visit goes on to the next sample, the nested loops run for any grid
`bw` by `bh` fold the visits over the sample indices below `min (bh * bw) N`. -/
theorem cellLoops_all_next_upto {σ : Type} (N bw bh : Nat) (hbw : 0 < bw)
    (visit : Nat → Nat → Nat → σ → Step σ) (g : Nat → σ → σ)
    (hnext : ∀ i, i < N → ∀ s, visit i (i % bw) (i / bw) s = Step.next (g i s)) (s : σ) :
    cellLoops N bw bh visit s =
      ((List.range (min (bh * bw) N)).foldl (fun s1 i => g i s1) s, none) := by
  unfold cellLoops
  rw [guarded_rows_eq_linear N bw visit hbw
    (fun i hi s1 s2 => by rw [hnext i hi s1]; simp)]
  rw [Nat.zero_mul, Nat.sub_zero, List.range_eq_range']
  apply forLoop_all_next_fold
  intro j _ hj s1
  show guardedBody N bw visit (j / bw) (j % bw) s1 = _
  have hjN : j < N := by
    have : min (bh * bw) N ≤ N := Nat.min_le_right _ _
    omega
  rw [guardedBody_of_lt N bw visit j s1 hjN]
  exact hnext j hjN s1

theorem exampleLargeCanvas_length : exampleLargeCanvas.batch_data.length = 16781313 :=
  List.length_replicate _ _

theorem exampleLargeCanvas_sample (i : Nat) (hi : i < 16781313) :
    exampleLargeCanvas.sample i = ⟨1, 1, 3, [1, 0, 0]⟩ := by
  show (List.replicate 16781313 (⟨1, 1, 3, [1, 0, 0]⟩ : Tensor)).getD i default = _
  rw [List.getD_eq_getElem?_getD, List.getElem?_replicate_of_lt hi]
  rfl

theorem exampleLargeCanvas_renderable (i : Nat) (hi : i < 16781313) :
    (exampleLargeCanvas.sample i).Renderable := by
  rw [exampleLargeCanvas_sample i hi]
  decide

theorem batch_height_large : batch_height 16781313 = 4097 := by
  rw [batch_height_eq 16781313 (by norm_num), batch_width_large]

/-- C12, at the failing input: a batch of 16781313 renderable samples shown by
`WindowRGBTensor<float>`. The source computes `batch_width = 4097` and, in float,
`batch_height = ceil(16781312 / 4097) = 4096`, where the exact ceiling is 4097. The
4097 x 4096 grid has 16781312 cells, so the loops enter the indices `0 .. 16781311`
only: the last sample, of index 16781312, is never entered, and the frame is
completed with the rectangles of the first 16781312 samples. -/
theorem C12_last_sample_never_entered :
    (exampleLargeCanvas.batch_data.length = 16781313 ∧
      ∀ i, i < 16781313 → (exampleLargeCanvas.sample i).Renderable) ∧
    (batch_width 16781313 = 4097 ∧ batch_height_eT 24 16781313 = 4096 ∧
      batch_height 16781313 = 4097) ∧
    (∀ (NDEBUG : Bool) (s : Locals),
      forLoop (rowBody NDEBUG exampleLargeCanvas 512 512 4097 4096) 4096 0 s =
        cellLoops 16781313 4097 4096 (renderVisit NDEBUG exampleLargeCanvas 512 512 4097 4096)
          s) ∧
    (∀ (NDEBUG : Bool) (s : Locals),
      (cellLoops 16781313 4097 4096
          (tracedVisit (renderVisit NDEBUG exampleLargeCanvas 512 512 4097 4096))
          (s, [])).1.2 =
        (List.range 16781312).map (fun i => (i, i % 4097, i / 4097))) ∧
    (∀ NDEBUG : Bool,
      displayHandler_eT 24 NDEBUG 1 512 512 exampleLargeCanvas =
        ([displayTraceLine 1, Event.glClearColor 0 0 0 0, Event.glClear] ++
          (List.range 16781312).flatMap (exampleLargeCanvas.blockAt 512 512 4097 4096) ++
          [Event.glutSwapBuffers], none)) := by
  refine ⟨⟨exampleLargeCanvas_length, exampleLargeCanvas_renderable⟩,
    ⟨batch_width_large, batch_height_eT_large, batch_height_large⟩, ?_, ?_, ?_⟩
  · intro NDEBUG s
    have h := rowLoops_eq_cellLoops NDEBUG exampleLargeCanvas 512 512 4097 4096 s
    rw [exampleLargeCanvas_length] at h
    exact h
  · intro NDEBUG s
    rw [cellLoops_all_next_upto 16781313 4097 4096 (by norm_num) _
      (fun i (q : Locals × List (Nat × Nat × Nat)) =>
        (({ height := (exampleLargeCanvas.sample i).dim0,
            width := (exampleLargeCanvas.sample i).dim1,
            depth := (exampleLargeCanvas.sample i).dim2,
            events := q.1.events ++ exampleLargeCanvas.blockAt 512 512 4097 4096 i } : Locals),
          q.2 ++ [(i, i % 4097, i / 4097)]))
      (fun i hi q => by
        simp only [tracedVisit, renderVisit_renderable NDEBUG exampleLargeCanvas 512 512
          4097 4096 i (i % 4097) (i / 4097) q.1 (exampleLargeCanvas_renderable i hi)]
        rfl) (s, [])]
    rw [foldl_traced (fun i (s1 : Locals) =>
        ({ height := (exampleLargeCanvas.sample i).dim0,
           width := (exampleLargeCanvas.sample i).dim1,
           depth := (exampleLargeCanvas.sample i).dim2,
           events := s1.events ++ exampleLargeCanvas.blockAt 512 512 4097 4096 i } : Locals))
      (fun i => (i, i % 4097, i / 4097)) s [] (min (4096 * 4097) 16781313)]
    have hmin : min (4096 * 4097) 16781313 = 16781312 := by norm_num
    rw [hmin, List.nil_append]
  · intro NDEBUG
    have h := displayHandlerFrom_renderable 4096 NDEBUG 1 512 512 exampleLargeCanvas 16781312
      (by rw [exampleLargeCanvas_length]; norm_num)
      (by rw [exampleLargeCanvas_length, batch_width_large]; norm_num)
      (by norm_num)
      (fun i hi => exampleLargeCanvas_renderable i (by omega))
    rw [exampleLargeCanvas_length, batch_width_large] at h
    have hg : exampleLargeCanvas.grid = Grid.Grid_None := rfl
    unfold displayHandler_eT
    rw [exampleLargeCanvas_length, batch_height_eT_large, h, hg]
    simp only [drawGrids, entryEvents, List.append_nil]

/-! ## displayHandler: placement of the rectangles -/

end mic.opengl.visualization
